import Mathlib

/-!
Shallow embedding of the grid-mockup compositing engine from this repository:
the preview renderer `drawCanvas` and the pointer handlers in `src/App.tsx`,
and the export renderer `drawExportCanvas` in the export worker
(`src/unnamed/part_000`).

All pixel arithmetic is modelled over `ℚ` (JavaScript numbers, exact);
the rotation trigonometry of the text-layer hit test is modelled over `ℝ`.
Canvas `measureText` is modelled as linear in the font size: each text layer
carries a `unitWidth` (measured width per pixel of font size), so the measured
width at font size `f` is `unitWidth * f`.  Renderers are embedded as pure
functions producing a list of drawing operations (`DrawOp`) that records every
geometric and style parameter the canvas calls receive.
-/

namespace GridMockup

/-- Layout mode enum (`LayoutMode` in `src/types.ts`). -/
inductive LayoutMode where
  | grid
  | leftBig
  | rightBig
  | topBig
  | bottomBig
  | singleBlur
  | freeform
deriving DecidableEq, Repr

/-- Fit policy for cells (`imageFit` state: `'cover' | 'contain'`). -/
inductive ImageFit where
  | cover
  | contain
deriving DecidableEq, Repr

/-- Watermark anchor (`WatermarkPosition` in `src/types.ts`). -/
inductive WatermarkPosition where
  | topLeft
  | topRight
  | bottomLeft
  | bottomRight
  | center
deriving DecidableEq, Repr

/-- A decoded bitmap (an `HTMLImageElement` in the preview, an `ImageBitmap`
in the worker): its source identity (`src` url) and pixel dimensions. -/
structure Bitmap where
  src : ℕ
  w : ℚ
  h : ℚ
deriving DecidableEq, Repr

/-- `ImageState` from `src/types.ts`: identity, url, optional freeform
geometry and z-index.  Colors/urls/ids are modelled as ℕ tokens. -/
structure ImageState where
  id : ℕ
  url : ℕ
  x : Option ℚ := none
  y : Option ℚ := none
  width : Option ℚ := none
  height : Option ℚ := none
  zIndex : Option ℚ := none
deriving DecidableEq, Repr

/-- `TextLayer` from `src/types.ts`.  `unitWidth` models `measureText`:
the measured text width at font size `f` is `unitWidth * f`. -/
structure TextLayer where
  id : ℕ
  unitWidth : ℚ
  x : ℚ
  y : ℚ
  fontSize : ℚ
  fontFamily : ℕ
  color : ℕ
  rotation : ℚ
  shadow : Bool
  backgroundColor : ℕ
  backgroundOpacity : ℚ
  padding : ℚ
deriving DecidableEq, Repr

/-- `WatermarkState` from `src/types.ts` (decoded pixels live in
`Scene.loadedWatermark`). -/
structure WatermarkState where
  opacity : ℚ
  size : ℚ
  position : WatermarkPosition
deriving DecidableEq, Repr

/-- `BackgroundState` from `src/types.ts`: a solid color (`none` models a
falsy value) or an image (decoded pixels live in `Scene.loadedBackground`). -/
inductive BackgroundSpec where
  | color (value : Option ℕ)
  | image
deriving DecidableEq, Repr

/-- The scene: the React state read by `drawCanvas`, which is also exactly the
data serialised to the export worker (`WorkerStatePayload` plus the bitmap
payload).  `loadedImages` is `loadedGridImages` / `bitmaps.grid`. -/
structure Scene where
  layoutMode : LayoutMode
  images : List ImageState
  loadedImages : List Bitmap
  textLayers : List TextLayer
  watermark : Option WatermarkState
  loadedWatermark : Option Bitmap
  background : BackgroundSpec
  loadedBackground : Option Bitmap
  gap : ℚ
  globalZoom : ℚ
  imageFit : ImageFit
  mainZoom : ℚ
  bgBlur : ℚ
  bgOpacity : ℚ
  selectedImageId : Option ℕ := none
deriving DecidableEq, Repr

/-- An axis-aligned rectangle in canvas pixels. -/
structure Rect where
  x : ℚ
  y : ℚ
  w : ℚ
  h : ℚ
deriving DecidableEq, Repr

/-- One recorded drawing operation.  Each constructor captures every geometric
and style parameter the corresponding canvas calls receive:
`imageDraw` is the clipped cell paint of the shared `drawImage` helper
(clip rectangle, then the fitted render rectangle), `blurred` is a
single-blur backdrop tile (with filter blur radius and global alpha),
`freeDraw` an unclipped freeform paint, `selection` the preview-only
selection outline and bottom-right handle, `textDraw` a text layer paint
(translate position, rotation in degrees, font size, fill color, optional
background box in layer-local coordinates with color and opacity, optional
shadow as blur/offsetX/offsetY). -/
inductive DrawOp where
  | clearOp (r : Rect)
  | bgImage (b : Bitmap) (r : Rect)
  | bgColor (c : ℕ) (r : Rect)
  | prompt
  | imageDraw (b : Bitmap) (clip : Rect) (render : Rect)
  | blurred (b : Bitmap) (r : Rect) (blur : ℚ) (alpha : ℚ)
  | freeDraw (b : Bitmap) (r : Rect)
  | selection (outline : Rect) (handle : Rect)
  | watermarkDraw (b : Bitmap) (r : Rect) (alpha : ℚ)
  | textDraw (x y rotation fontSize : ℚ) (color : ℕ)
      (bg : Option (Rect × ℕ × ℚ)) (shadow : Option (ℚ × ℚ × ℚ))
deriving DecidableEq, Repr

/-- `Math.ceil(Math.sqrt n)` for a natural `n`. -/
def ceilSqrt (n : ℕ) : ℕ :=
  if Nat.sqrt n * Nat.sqrt n = n then Nat.sqrt n else Nat.sqrt n + 1

/-- `Math.ceil(a / b)` for naturals with `b > 0` (the value at `b = 0` is
never used: the code only divides by a positive column count). -/
def ceilDivNat (a b : ℕ) : ℕ := (a + b - 1) / b

/-- The z-key used by every z-order comparison in `App.tsx`:
`img.zIndex || 0`. -/
def zKey (s : ImageState) : ℚ := s.zIndex.getD 0

/-- The stable ascending z-sort `[...images].sort((a, b) => (a.zIndex||0) - (b.zIndex||0))`
used by both freeform renderers (JavaScript `Array.prototype.sort` is stable). -/
def sortAscZ (l : List ImageState) : List ImageState :=
  List.insertionSort (fun a b => zKey a ≤ zKey b) l

/-- The stable descending z-sort `[...images].sort((a, b) => (b.zIndex||0) - (a.zIndex||0))`
used by the pointer-down image scan. -/
def sortDescZ (l : List ImageState) : List ImageState :=
  List.insertionSort (fun a b => zKey b ≤ zKey a) l

/-- Measured text width (canvas `measureText`, modelled as linear in the font
size: `unitWidth * fontSize`). -/
def measuredTextWidth (layer : TextLayer) (fontSize : ℚ) : ℚ :=
  layer.unitWidth * fontSize

/-- Default canvas background fill `'#F3F4F6'`. -/
def defaultBgColor : ℕ := 0xF3F4F6

/-- Fill color chosen by both renderers when not painting a background image:
`background.type === 'color' && background.value ? background.value : '#F3F4F6'`. -/
def bgFillColor (sc : Scene) : ℕ :=
  match sc.background with
  | BackgroundSpec.color (some v) => v
  | _ => defaultBgColor

/-- Step 1 of both renderers: clear, then paint the background image
(stretched to the full canvas, when the type is image and a decoded bitmap is
present) or the solid fill. -/
def backgroundOps (W H : ℚ) (sc : Scene) : List DrawOp :=
  DrawOp.clearOp ⟨0, 0, W, H⟩ ::
    (match sc.background, sc.loadedBackground with
     | BackgroundSpec.image, some bmp => [DrawOp.bgImage bmp ⟨0, 0, W, H⟩]
     | _, _ => [DrawOp.bgColor (bgFillColor sc) ⟨0, 0, W, H⟩])

/-- The `drawImage` helper inside `drawCanvas` (App.tsx): clip to the cell
rectangle, then fit the bitmap by the cover/contain ratio rule, scaled by
`globalZoom * extraZoom`, centered in the cell. -/
def previewDrawImage (fit : ImageFit) (globalZoom : ℚ) (img : Bitmap)
    (x y w h extraZoom : ℚ) : DrawOp :=
  let zoom := globalZoom * extraZoom
  let imgRatio := img.w / img.h
  let cellRatio := w / h
  let render : ℚ × ℚ :=
    if (if fit = ImageFit.cover then imgRatio > cellRatio else imgRatio < cellRatio) then
      (h * zoom * imgRatio, h * zoom)
    else
      (w * zoom, w * zoom / imgRatio)
  DrawOp.imageDraw img ⟨x, y, w, h⟩
    ⟨x + (w - render.1) / 2, y + (h - render.2) / 2, render.1, render.2⟩

/-- The textually identical `drawImage` helper inside `drawExportCanvas`
(export worker). -/
def exportDrawImage (fit : ImageFit) (globalZoom : ℚ) (img : Bitmap)
    (x y w h extraZoom : ℚ) : DrawOp :=
  let zoom := globalZoom * extraZoom
  let imgRatio := img.w / img.h
  let cellRatio := w / h
  let render : ℚ × ℚ :=
    if (if fit = ImageFit.cover then imgRatio > cellRatio else imgRatio < cellRatio) then
      (h * zoom * imgRatio, h * zoom)
    else
      (w * zoom, w * zoom / imgRatio)
  DrawOp.imageDraw img ⟨x, y, w, h⟩
    ⟨x + (w - render.1) / 2, y + (h - render.2) / 2, render.1, render.2⟩

/-- Freeform bitmap lookup of the preview renderer:
`loadedGridImages.find(li => li.src === imgState.url)`. -/
def previewFindBitmap (loaded : List Bitmap) (s : ImageState) : Option Bitmap :=
  loaded.find? (fun li => li.src == s.url)

/-- Freeform bitmap lookup of the export renderer:
`loadedGridImages[images.findIndex(i => i.id === imgState.id)]`
(`findIndex` returning `-1` indexes `undefined`, modelled as `none`). -/
def exportFindBitmap (images : List ImageState) (loaded : List Bitmap)
    (s : ImageState) : Option Bitmap :=
  match images.findIdx? (fun i2 => i2.id == s.id) with
  | some j => loaded[j]?
  | none => none

/-- Layout step of `drawCanvas`: the `switch (layoutMode)` over the loaded
images, producing the image paints in draw order.  `drawGap` is the gap used
for both axes (the preview uses the raw `gap`). -/
def previewLayoutOps (W H : ℚ) (sc : Scene) : List DrawOp :=
  match sc.layoutMode with
  | LayoutMode.grid =>
    let n := sc.loadedImages.length
    let cols := ceilSqrt n
    let rows := ceilDivNat n cols
    let cellWidth := (W - ((cols : ℚ) + 1) * sc.gap) / (cols : ℚ)
    let cellHeight := (H - ((rows : ℚ) + 1) * sc.gap) / (rows : ℚ)
    sc.loadedImages.enum.map fun p =>
      previewDrawImage sc.imageFit sc.globalZoom p.2
        (sc.gap + ((p.1 % cols : ℕ) : ℚ) * (cellWidth + sc.gap))
        (sc.gap + ((p.1 / cols : ℕ) : ℚ) * (cellHeight + sc.gap))
        cellWidth cellHeight 1
  | LayoutMode.leftBig
  | LayoutMode.rightBig =>
    let isLeftBig := sc.layoutMode = LayoutMode.leftBig
    (match sc.loadedImages with
     | [] => []
     | img0 :: _ =>
       let bigX := if isLeftBig then sc.gap else W / 2 + sc.gap / 2
       let bigW := W / 2 - sc.gap * (3 / 2)
       let bigH := H - sc.gap * 2
       [previewDrawImage sc.imageFit sc.globalZoom img0 bigX sc.gap bigW bigH 1]) ++
    (if 1 < sc.loadedImages.length then
       let gridImages := sc.loadedImages.drop 1
       let cols := max 1 (ceilSqrt gridImages.length)
       let rows := max 1 (ceilDivNat gridImages.length cols)
       let startX := if isLeftBig then W / 2 + sc.gap / 2 else sc.gap
       let availableWidth := W / 2 - sc.gap * (3 / 2)
       let cellWidth := (availableWidth - ((cols : ℚ) - 1) * sc.gap) / (cols : ℚ)
       let cellHeight := (H - ((rows : ℚ) + 1) * sc.gap) / (rows : ℚ)
       gridImages.enum.map fun p =>
         previewDrawImage sc.imageFit sc.globalZoom p.2
           (startX + ((p.1 % cols : ℕ) : ℚ) * (cellWidth + sc.gap))
           (sc.gap + ((p.1 / cols : ℕ) : ℚ) * (cellHeight + sc.gap))
           cellWidth cellHeight 1
     else [])
  | LayoutMode.topBig
  | LayoutMode.bottomBig =>
    let isTopBig := sc.layoutMode = LayoutMode.topBig
    (match sc.loadedImages with
     | [] => []
     | img0 :: _ =>
       let bigY := if isTopBig then sc.gap else H / 2 + sc.gap / 2
       let bigW := W - sc.gap * 2
       let bigH := H / 2 - sc.gap * (3 / 2)
       [previewDrawImage sc.imageFit sc.globalZoom img0 sc.gap bigY bigW bigH 1]) ++
    (if 1 < sc.loadedImages.length then
       let gridImages := sc.loadedImages.drop 1
       let startY := if isTopBig then H / 2 + sc.gap / 2 else sc.gap
       let gridHeight := H / 2 - sc.gap * (3 / 2)
       let cols := max 1 (ceilSqrt gridImages.length)
       let rows := max 1 (ceilDivNat gridImages.length cols)
       let cellWidth := (W - ((cols : ℚ) + 1) * sc.gap) / (cols : ℚ)
       let cellHeight := (gridHeight - ((rows : ℚ) - 1) * sc.gap) / (rows : ℚ)
       gridImages.enum.map fun p =>
         previewDrawImage sc.imageFit sc.globalZoom p.2
           (sc.gap + ((p.1 % cols : ℕ) : ℚ) * (cellWidth + sc.gap))
           (startY + ((p.1 / cols : ℕ) : ℚ) * (cellHeight + sc.gap))
           cellWidth cellHeight 1
     else [])
  | LayoutMode.singleBlur =>
    let bgImages := sc.loadedImages.drop 1
    (if 0 < bgImages.length then
       let cols := ceilSqrt bgImages.length
       let rows := ceilDivNat bgImages.length cols
       let cellWidth := W / (cols : ℚ)
       let cellHeight := H / (rows : ℚ)
       bgImages.enum.map fun p =>
         DrawOp.blurred p.2
           ⟨((p.1 % cols : ℕ) : ℚ) * cellWidth, ((p.1 / cols : ℕ) : ℚ) * cellHeight,
            cellWidth, cellHeight⟩
           sc.bgBlur sc.bgOpacity
     else []) ++
    (match sc.loadedImages with
     | [] => []
     | img0 :: _ =>
       let maxW := W * (4 / 5)
       let maxH := H * (9 / 10)
       [previewDrawImage sc.imageFit sc.globalZoom img0
          ((W - maxW) / 2) ((H - maxH) / 2) maxW maxH sc.mainZoom])
  | LayoutMode.freeform =>
    (sortAscZ sc.images).flatMap fun s =>
      match previewFindBitmap sc.loadedImages s, s.x, s.y, s.width, s.height with
      | some bmp, some x, some y, some w, some h =>
        DrawOp.freeDraw bmp ⟨x, y, w, h⟩ ::
          (if sc.selectedImageId = some s.id then
             [DrawOp.selection ⟨x, y, w, h⟩ ⟨x + w - 5, y + h - 5, 10, 10⟩]
           else [])
      | _, _, _, _, _ => []

/-- Watermark step of `drawCanvas`: width is `size%` of the canvas width,
height follows the bitmap aspect ratio, margin is the gap on both axes. -/
def previewWatermarkOps (W H : ℚ) (sc : Scene) : List DrawOp :=
  match sc.watermark, sc.loadedWatermark with
  | some wm, some lw =>
    let aspect := lw.w / lw.h
    let w := W / 100 * wm.size
    let h := w / aspect
    let margin := sc.gap
    let xy : ℚ × ℚ :=
      match wm.position with
      | WatermarkPosition.topLeft => (margin, margin)
      | WatermarkPosition.topRight => (W - w - margin, margin)
      | WatermarkPosition.bottomLeft => (margin, H - h - margin)
      | WatermarkPosition.bottomRight => (W - w - margin, H - h - margin)
      | WatermarkPosition.center => ((W - w) / 2, (H - h) / 2)
    [DrawOp.watermarkDraw lw ⟨xy.1, xy.2, w, h⟩ wm.opacity]
  | _, _ => []

/-- Text step of `drawCanvas`: translate to the layer position, rotate by its
angle, optionally fill the centered padded background box, optionally set the
fixed soft shadow (blur 10, offset 5/5), fill the text. -/
def previewTextOps (sc : Scene) : List DrawOp :=
  sc.textLayers.map fun layer =>
    let bg : Option (Rect × ℕ × ℚ) :=
      if 0 < layer.backgroundOpacity then
        let rectW := measuredTextWidth layer layer.fontSize + layer.padding * 2
        let rectH := layer.fontSize + layer.padding * 2
        some (⟨-(rectW / 2), -(rectH / 2), rectW, rectH⟩,
              layer.backgroundColor, layer.backgroundOpacity)
      else none
    let shadow : Option (ℚ × ℚ × ℚ) :=
      if layer.shadow then some (10, 5, 5) else none
    DrawOp.textDraw layer.x layer.y layer.rotation layer.fontSize layer.color bg shadow

/-- The preview renderer `drawCanvas` (App.tsx): background, then — unless the
scene is entirely empty, in which case an upload prompt is painted — the
layout-mode image paints, the watermark and the text layers. -/
def previewOps (W H : ℚ) (sc : Scene) : List DrawOp :=
  backgroundOps W H sc ++
    (if sc.images = [] ∧ sc.textLayers = [] ∧ sc.watermark = none then
       [DrawOp.prompt]
     else
       previewLayoutOps W H sc ++ previewWatermarkOps W H sc ++ previewTextOps sc)

/-- Layout step of `drawExportCanvas`: the same `switch` as the preview, with
the gap pre-scaled per axis (`exportGapX = gap * scaleX`,
`exportGapY = gap * scaleY`) and, in freeform mode, the stored geometry
multiplied per axis. -/
def exportLayoutOps (EW EH sX sY : ℚ) (sc : Scene) : List DrawOp :=
  match sc.layoutMode with
  | LayoutMode.grid =>
    let exportGapX := sc.gap * sX
    let exportGapY := sc.gap * sY
    let n := sc.loadedImages.length
    let cols := ceilSqrt n
    let rows := ceilDivNat n cols
    let cellWidth := (EW - ((cols : ℚ) + 1) * exportGapX) / (cols : ℚ)
    let cellHeight := (EH - ((rows : ℚ) + 1) * exportGapY) / (rows : ℚ)
    sc.loadedImages.enum.map fun p =>
      exportDrawImage sc.imageFit sc.globalZoom p.2
        (exportGapX + ((p.1 % cols : ℕ) : ℚ) * (cellWidth + exportGapX))
        (exportGapY + ((p.1 / cols : ℕ) : ℚ) * (cellHeight + exportGapY))
        cellWidth cellHeight 1
  | LayoutMode.leftBig
  | LayoutMode.rightBig =>
    let exportGapX := sc.gap * sX
    let exportGapY := sc.gap * sY
    let isLeftBig := sc.layoutMode = LayoutMode.leftBig
    (match sc.loadedImages with
     | [] => []
     | img0 :: _ =>
       let bigX := if isLeftBig then exportGapX else EW / 2 + exportGapX / 2
       let bigW := EW / 2 - exportGapX * (3 / 2)
       let bigH := EH - exportGapY * 2
       [exportDrawImage sc.imageFit sc.globalZoom img0 bigX exportGapY bigW bigH 1]) ++
    (if 1 < sc.loadedImages.length then
       let gridImages := sc.loadedImages.drop 1
       let cols := max 1 (ceilSqrt gridImages.length)
       let rows := max 1 (ceilDivNat gridImages.length cols)
       let startX := if isLeftBig then EW / 2 + exportGapX / 2 else exportGapX
       let availableWidth := EW / 2 - exportGapX * (3 / 2)
       let cellWidth := (availableWidth - ((cols : ℚ) - 1) * exportGapX) / (cols : ℚ)
       let cellHeight := (EH - ((rows : ℚ) + 1) * exportGapY) / (rows : ℚ)
       gridImages.enum.map fun p =>
         exportDrawImage sc.imageFit sc.globalZoom p.2
           (startX + ((p.1 % cols : ℕ) : ℚ) * (cellWidth + exportGapX))
           (exportGapY + ((p.1 / cols : ℕ) : ℚ) * (cellHeight + exportGapY))
           cellWidth cellHeight 1
     else [])
  | LayoutMode.topBig
  | LayoutMode.bottomBig =>
    let exportGapX := sc.gap * sX
    let exportGapY := sc.gap * sY
    let isTopBig := sc.layoutMode = LayoutMode.topBig
    (match sc.loadedImages with
     | [] => []
     | img0 :: _ =>
       let bigY := if isTopBig then exportGapY else EH / 2 + exportGapY / 2
       let bigW := EW - exportGapX * 2
       let bigH := EH / 2 - exportGapY * (3 / 2)
       [exportDrawImage sc.imageFit sc.globalZoom img0 exportGapX bigY bigW bigH 1]) ++
    (if 1 < sc.loadedImages.length then
       let gridImages := sc.loadedImages.drop 1
       let startY := if isTopBig then EH / 2 + exportGapY / 2 else exportGapY
       let gridHeight := EH / 2 - exportGapY * (3 / 2)
       let cols := max 1 (ceilSqrt gridImages.length)
       let rows := max 1 (ceilDivNat gridImages.length cols)
       let cellWidth := (EW - ((cols : ℚ) + 1) * exportGapX) / (cols : ℚ)
       let cellHeight := (gridHeight - ((rows : ℚ) - 1) * exportGapY) / (rows : ℚ)
       gridImages.enum.map fun p =>
         exportDrawImage sc.imageFit sc.globalZoom p.2
           (exportGapX + ((p.1 % cols : ℕ) : ℚ) * (cellWidth + exportGapX))
           (startY + ((p.1 / cols : ℕ) : ℚ) * (cellHeight + exportGapY))
           cellWidth cellHeight 1
     else [])
  | LayoutMode.singleBlur =>
    let bgImages := sc.loadedImages.drop 1
    (if 0 < bgImages.length then
       let cols := ceilSqrt bgImages.length
       let rows := ceilDivNat bgImages.length cols
       let cellWidth := EW / (cols : ℚ)
       let cellHeight := EH / (rows : ℚ)
       bgImages.enum.map fun p =>
         DrawOp.blurred p.2
           ⟨((p.1 % cols : ℕ) : ℚ) * cellWidth, ((p.1 / cols : ℕ) : ℚ) * cellHeight,
            cellWidth, cellHeight⟩
           (sc.bgBlur * sX) sc.bgOpacity
     else []) ++
    (match sc.loadedImages with
     | [] => []
     | img0 :: _ =>
       let maxW := EW * (4 / 5)
       let maxH := EH * (9 / 10)
       [exportDrawImage sc.imageFit sc.globalZoom img0
          ((EW - maxW) / 2) ((EH - maxH) / 2) maxW maxH sc.mainZoom])
  | LayoutMode.freeform =>
    (sortAscZ sc.images).flatMap fun s =>
      match exportFindBitmap sc.images sc.loadedImages s, s.x, s.y, s.width, s.height with
      | some bmp, some x, some y, some w, some h =>
        [DrawOp.freeDraw bmp ⟨x * sX, y * sY, w * sX, h * sY⟩]
      | _, _, _, _, _ => []

/-- Watermark step of `drawExportCanvas`: width is `size%` of the export
width, height follows the bitmap aspect ratio, margins are the per-axis
scaled gap. -/
def exportWatermarkOps (EW EH sX sY : ℚ) (sc : Scene) : List DrawOp :=
  match sc.watermark, sc.loadedWatermark with
  | some wm, some lw =>
    let aspect := lw.w / lw.h
    let w := EW / 100 * wm.size
    let h := w / aspect
    let marginX := sc.gap * sX
    let marginY := sc.gap * sY
    let xy : ℚ × ℚ :=
      match wm.position with
      | WatermarkPosition.topLeft => (marginX, marginY)
      | WatermarkPosition.topRight => (EW - w - marginX, marginY)
      | WatermarkPosition.bottomLeft => (marginX, EH - h - marginY)
      | WatermarkPosition.bottomRight => (EW - w - marginX, EH - h - marginY)
      | WatermarkPosition.center => ((EW - w) / 2, (EH - h) / 2)
    [DrawOp.watermarkDraw lw ⟨xy.1, xy.2, w, h⟩ wm.opacity]
  | _, _ => []

/-- Text step of `drawExportCanvas`: translate to the position scaled per
axis, same rotation, font size and padding scaled by `scaleY`, the background
box measured at the scaled font, shadow blur/offsets scaled
(`10*scaleY, 5*scaleX, 5*scaleY`). -/
def exportTextOps (sX sY : ℚ) (sc : Scene) : List DrawOp :=
  sc.textLayers.map fun layer =>
    let scaledFontSize := layer.fontSize * sY
    let scaledPadding := layer.padding * sY
    let bg : Option (Rect × ℕ × ℚ) :=
      if 0 < layer.backgroundOpacity then
        let rectW := measuredTextWidth layer scaledFontSize + scaledPadding * 2
        let rectH := scaledFontSize + scaledPadding * 2
        some (⟨-(rectW / 2), -(rectH / 2), rectW, rectH⟩,
              layer.backgroundColor, layer.backgroundOpacity)
      else none
    let shadow : Option (ℚ × ℚ × ℚ) :=
      if layer.shadow then some (10 * sY, 5 * sX, 5 * sY) else none
    DrawOp.textDraw (layer.x * sX) (layer.y * sY) layer.rotation scaledFontSize
      layer.color bg shadow

/-- The export renderer `drawExportCanvas` (export worker): derives
`scaleX = EXPORT_WIDTH / sourceDimensions.width` and
`scaleY = EXPORT_HEIGHT / sourceDimensions.height`, then paints background,
layout, watermark and text. -/
def exportOps (EW EH sw sh : ℚ) (sc : Scene) : List DrawOp :=
  let sX := EW / sw
  let sY := EH / sh
  backgroundOps EW EH sc ++ exportLayoutOps EW EH sX sY sc ++
    exportWatermarkOps EW EH sX sY sc ++ exportTextOps sX sY sc

/-- Interaction mode of the pointer state machine
(`'idle' | 'dragging' | 'resizing-br'`). -/
inductive IMode where
  | idle
  | dragging
  | resizingBr
deriving DecidableEq, Repr

/-- Interaction target (`'text' | 'image' | null` is `Option ITarget`). -/
inductive ITarget where
  | text
  | image
deriving DecidableEq, Repr

/-- `InteractionState` from App.tsx. -/
structure InteractionState where
  mode : IMode
  target : Option ITarget
  id : Option ℕ := none
  offsetX : Option ℚ := none
  offsetY : Option ℚ := none
deriving DecidableEq, Repr

/-- The rotated text-layer hit test of `handleMouseDown`, at a real-valued
pointer: translate the pointer by the layer position, rotate the delta by the
negative of the layer angle (`rotation` degrees), and compare against the
half-extents of the padded measured box. -/
def textHitReal (layer : TextLayer) (mouseX mouseY : ℝ) : Prop :=
  let textWidth : ℚ := measuredTextWidth layer layer.fontSize + layer.padding * 2
  let textHeight : ℚ := layer.fontSize + layer.padding * 2
  let angle : ℝ := (layer.rotation : ℝ) * Real.pi / 180
  let c : ℝ := Real.cos (-angle)
  let s : ℝ := Real.sin (-angle)
  let dx : ℝ := mouseX - (layer.x : ℝ)
  let dy : ℝ := mouseY - (layer.y : ℝ)
  |dx * c - dy * s| < (textWidth : ℝ) / 2 ∧ |dx * s + dy * c| < (textHeight : ℝ) / 2

/-- The hit test at a canvas (rational) pointer position. -/
def textHitAt (layer : TextLayer) (mouseX mouseY : ℚ) : Prop :=
  textHitReal layer (mouseX : ℝ) (mouseY : ℝ)

open Classical in
/-- The pointer-down text scan: layers are tested from the highest array
index down, first hit wins (`for (let i = textLayers.length - 1; i >= 0; i--)`). -/
noncomputable def findHitText (mx my : ℚ) : List TextLayer → Option TextLayer
  | [] => none
  | layer :: rest =>
    match findHitText mx my rest with
    | some found => some found
    | none => if textHitAt layer mx my then some layer else none

/-- The freeform pointer-down image scan over the z-descending image list:
for each image with complete geometry, first check the 12-unit square around
the bottom-right corner (only for the currently selected image), then the
open body rectangle; the first match wins.  Returns the hit image, the
interaction mode, and the image origin. -/
def findClickedImage (selId : Option ℕ) (mx my : ℚ) :
    List ImageState → Option (ImageState × IMode × ℚ × ℚ)
  | [] => none
  | img :: rest =>
    match img.x, img.y, img.width, img.height with
    | some x, some y, some w, some h =>
      if selId = some img.id ∧
          x + w - 12 ≤ mx ∧ mx ≤ x + w + 12 ∧ y + h - 12 ≤ my ∧ my ≤ y + h + 12 then
        some (img, IMode.resizingBr, x, y)
      else if x < mx ∧ mx < x + w ∧ y < my ∧ my < y + h then
        some (img, IMode.dragging, x, y)
      else findClickedImage selId mx my rest
    | _, _, _, _ => findClickedImage selId mx my rest

/-- `bringToFront`: the target image gets `max(0, ...zIndexes) + 1`; every
other image is untouched. -/
def bringToFront (targetId : ℕ) (imgs : List ImageState) : List ImageState :=
  let maxZ := (imgs.map zKey).foldl max 0
  imgs.map fun img =>
    if img.id = targetId then { img with zIndex := some (maxZ + 1) } else img

/-- `sendToBack`: the target image gets `min(0, ...zIndexes) - 1`; every
other image is untouched. -/
def sendToBack (targetId : ℕ) (imgs : List ImageState) : List ImageState :=
  let minZ := (imgs.map zKey).foldl min 0
  imgs.map fun img =>
    if img.id = targetId then { img with zIndex := some (minZ - 1) } else img

/-- Result of a pointer-down: the two selection states, the interaction
state, and the (possibly z-mutated) image list. -/
structure PointerDownResult where
  selectedTextId : Option ℕ
  selectedImageId : Option ℕ
  interaction : InteractionState
  images : List ImageState
deriving DecidableEq, Repr

/-- `handleMouseDown` (App.tsx): first the text-layer scan (any layout mode);
on a hit, select the layer and start a text drag.  Otherwise, in freeform
mode, scan the z-descending images for a resize-handle or body hit (starting
a resize or a drag plus bring-to-front-on-grab), or clear the selection; in
every other layout mode, only clear both selections (the interaction state is
not written). -/
noncomputable def handlePointerDown (sc : Scene) (prevInteraction : InteractionState)
    (mx my : ℚ) : PointerDownResult :=
  match findHitText mx my sc.textLayers with
  | some layer =>
    { selectedTextId := some layer.id
      selectedImageId := none
      interaction :=
        ⟨IMode.dragging, some ITarget.text, some layer.id,
         some (mx - layer.x), some (my - layer.y)⟩
      images := sc.images }
  | none =>
    if sc.layoutMode = LayoutMode.freeform then
      match findClickedImage sc.selectedImageId mx my (sortDescZ sc.images) with
      | some (img, m, x, y) =>
        { selectedTextId := none
          selectedImageId := some img.id
          interaction :=
            ⟨m, some ITarget.image, some img.id, some (mx - x), some (my - y)⟩
          images := if m = IMode.dragging then bringToFront img.id sc.images else sc.images }
      | none =>
        { selectedTextId := none
          selectedImageId := none
          interaction := ⟨IMode.idle, none, none, none, none⟩
          images := sc.images }
    else
      { selectedTextId := none
        selectedImageId := none
        interaction := prevInteraction
        images := sc.images }

/-- The per-image update of `handleMouseMove`'s `setImages` callback:
untouched unless the image is the interaction target; dragging moves the
origin by the grab offset; a bottom-right resize (when `x` and `y` are
present) sets `width = max(20, mouseX - x)` and `height = max(20, mouseY - y)`
independently per axis. -/
def moveUpdateImage (ist : InteractionState) (mx my : ℚ) (img : ImageState) :
    ImageState :=
  if ist.id ≠ some img.id then img
  else if ist.mode = IMode.dragging then
    { img with x := some (mx - ist.offsetX.getD 0), y := some (my - ist.offsetY.getD 0) }
  else if ist.mode = IMode.resizingBr ∧ img.x.isSome ∧ img.y.isSome then
    { img with
        width := some (max 20 (mx - img.x.getD 0))
        height := some (max 20 (my - img.y.getD 0)) }
  else img

/-- The image-list effect of `handleMouseMove`: nothing while idle or when
the interaction targets a text layer; otherwise the per-image update is
mapped over the list. -/
def pointerMoveImages (ist : InteractionState) (mx my : ℚ)
    (imgs : List ImageState) : List ImageState :=
  if ist.mode = IMode.idle then imgs
  else if ist.target = some ITarget.text then imgs
  else if ist.target = some ITarget.image ∧ ist.id.isSome then
    imgs.map (moveUpdateImage ist mx my)
  else imgs

/-- `Math.max(...list)` over a non-empty spread (the empty case is never
reached: the caller guards on `images.length > 0`). -/
def jsMaxList : List ℚ → ℚ
  | [] => 0
  | z :: zs => zs.foldl max z

/-- The base z-index of `handleImageUpload`:
`images.length > 0 ? Math.max(...images.map(i => i.zIndex || 0)) : 0`. -/
def uploadMaxZ (existing : List ImageState) : ℚ :=
  if 0 < existing.length then jsMaxList (existing.map zKey) else 0

/-- The batch of images created by `handleImageUpload` for `count` files
(fresh ids/urls from `baseId`): the j-th file gets origin `(50+30j, 50+30j)`,
size `300×200`, and z-index `uploadMaxZ existing + j + 1`. -/
def uploadNewImages (existing : List ImageState) (baseId count : ℕ) :
    List ImageState :=
  (List.range count).map fun j =>
    { id := baseId + j
      url := baseId + j
      x := some (50 + (j : ℚ) * 30)
      y := some (50 + (j : ℚ) * 30)
      width := some 300
      height := some 200
      zIndex := some (uploadMaxZ existing + (j : ℚ) + 1) }

/-- `setImages(prev => [...prev, ...newImages])`. -/
def uploadAppend (existing : List ImageState) (baseId count : ℕ) :
    List ImageState :=
  existing ++ uploadNewImages existing baseId count

/-- Uniform scaling of a rectangle by `s`. -/
def Rect.scale (s : ℚ) (r : Rect) : Rect := ⟨s * r.x, s * r.y, s * r.w, s * r.h⟩

/-- Per-axis scaling of a rectangle: horizontal quantities by `sx`, vertical
ones by `sy`. -/
def Rect.scaleXY (sx sy : ℚ) (r : Rect) : Rect :=
  ⟨sx * r.x, sy * r.y, sx * r.w, sy * r.h⟩

/-- Uniform scaling of a drawing operation by `s`: every linear pixel
quantity (rectangles, positions, blur radii, shadow blur and offsets, font
size) is multiplied by `s`; colors, alphas, rotation angles and bitmaps are
unchanged. -/
def DrawOp.scale (s : ℚ) : DrawOp → DrawOp
  | DrawOp.clearOp r => DrawOp.clearOp (r.scale s)
  | DrawOp.bgImage b r => DrawOp.bgImage b (r.scale s)
  | DrawOp.bgColor c r => DrawOp.bgColor c (r.scale s)
  | DrawOp.prompt => DrawOp.prompt
  | DrawOp.imageDraw b clip render => DrawOp.imageDraw b (clip.scale s) (render.scale s)
  | DrawOp.blurred b r blur alpha => DrawOp.blurred b (r.scale s) (s * blur) alpha
  | DrawOp.freeDraw b r => DrawOp.freeDraw b (r.scale s)
  | DrawOp.selection outline handle => DrawOp.selection (outline.scale s) (handle.scale s)
  | DrawOp.watermarkDraw b r alpha => DrawOp.watermarkDraw b (r.scale s) alpha
  | DrawOp.textDraw x y rotation fontSize color bg shadow =>
    DrawOp.textDraw (s * x) (s * y) rotation (s * fontSize) color
      (bg.map fun t => (t.1.scale s, t.2.1, t.2.2))
      (shadow.map fun t => (s * t.1, s * t.2.1, s * t.2.2))

/-- Per-axis scaling of a drawing operation, as demanded by the claim that
every horizontal linear quantity scales by `sx` and every vertical one by
`sy` (font size and padding vertically, shadow offsets per axis, shadow and
backdrop blur by the axis the export code uses). -/
def DrawOp.scaleXY (sx sy : ℚ) : DrawOp → DrawOp
  | DrawOp.clearOp r => DrawOp.clearOp (r.scaleXY sx sy)
  | DrawOp.bgImage b r => DrawOp.bgImage b (r.scaleXY sx sy)
  | DrawOp.bgColor c r => DrawOp.bgColor c (r.scaleXY sx sy)
  | DrawOp.prompt => DrawOp.prompt
  | DrawOp.imageDraw b clip render =>
    DrawOp.imageDraw b (clip.scaleXY sx sy) (render.scaleXY sx sy)
  | DrawOp.blurred b r blur alpha => DrawOp.blurred b (r.scaleXY sx sy) (sx * blur) alpha
  | DrawOp.freeDraw b r => DrawOp.freeDraw b (r.scaleXY sx sy)
  | DrawOp.selection outline handle =>
    DrawOp.selection (outline.scaleXY sx sy) (handle.scaleXY sx sy)
  | DrawOp.watermarkDraw b r alpha => DrawOp.watermarkDraw b (r.scaleXY sx sy) alpha
  | DrawOp.textDraw x y rotation fontSize color bg shadow =>
    DrawOp.textDraw (sx * x) (sy * y) rotation (sy * fontSize) color
      (bg.map fun t => (t.1.scaleXY sx sy, t.2.1, t.2.2))
      (shadow.map fun t => (sy * t.1, sx * t.2.1, sy * t.2.2))

/-- The clip (cell) rectangle of a clipped image paint, if the operation is
one. -/
def clipOf : DrawOp → Option Rect
  | DrawOp.imageDraw _ clip _ => some clip
  | _ => none

/-- Extract the clip (cell) rectangles of the clipped image paints, in draw
order. -/
def imageClips (ops : List DrawOp) : List Rect := ops.filterMap clipOf

/-- Whether an operation paints one of the placed images (a clipped cell
paint, a blurred backdrop tile, or a freeform paint); background, watermark,
text, prompt and selection overlays are not image placements. -/
def isImagePaint : DrawOp → Bool
  | DrawOp.imageDraw _ _ _ => true
  | DrawOp.blurred _ _ _ _ => true
  | DrawOp.freeDraw _ _ => true
  | _ => false

/-- The image placements among a list of operations. -/
def imagePaints (ops : List DrawOp) : List DrawOp := ops.filter isImagePaint

/-- Whether an operation is a freeform image paint. -/
def isFreePaint : DrawOp → Bool
  | DrawOp.freeDraw _ _ => true
  | _ => false

/-- The freeform image paints among a list of operations. -/
def freePaints (ops : List DrawOp) : List DrawOp := ops.filter isFreePaint

/-- The grid-mode cell rectangle stated by the specification:
`cols = ceil(sqrt n)`, `rows = ceil(n / cols)`, cell size
`((W - (cols+1)g)/cols, (H - (rows+1)g)/rows)`, origin
`(g + (i mod cols)(cellW + g), g + (i div cols)(cellH + g))`. -/
def gridCellRect (W H g : ℚ) (n i : ℕ) : Rect :=
  let cols := ceilSqrt n
  let rows := ceilDivNat n cols
  let cellW := (W - ((cols : ℚ) + 1) * g) / (cols : ℚ)
  let cellH := (H - ((rows : ℚ) + 1) * g) / (rows : ℚ)
  ⟨g + ((i % cols : ℕ) : ℚ) * (cellW + g), g + ((i / cols : ℕ) : ℚ) * (cellH + g),
   cellW, cellH⟩

/-- The big-image rectangle of the left-big / right-big modes: a half-width
column minus 1.5 gaps on the named side, full height minus 2 gaps. -/
def sideBigRect (isLeftBig : Prop) [Decidable isLeftBig] (W H g : ℚ) : Rect :=
  ⟨if isLeftBig then g else W / 2 + g / 2, g, W / 2 - g * (3 / 2), H - g * 2⟩

/-- The secondary-grid cell rectangle actually computed by the left-big /
right-big modes for `m` remaining images: grid-style `cols`/`rows` (floored
at 1), cell width `(availableWidth - (cols-1)g)/cols` over the half-width
column `availableWidth = W/2 - 1.5g` with no leading gap inside the column,
cell height `(H - (rows+1)g)/rows` over the full height. -/
def sideCellRect (isLeftBig : Prop) [Decidable isLeftBig] (W H g : ℚ) (m i : ℕ) : Rect :=
  let cols := max 1 (ceilSqrt m)
  let rows := max 1 (ceilDivNat m cols)
  let startX := if isLeftBig then W / 2 + g / 2 else g
  let availableWidth := W / 2 - g * (3 / 2)
  let cellW := (availableWidth - ((cols : ℚ) - 1) * g) / (cols : ℚ)
  let cellH := (H - ((rows : ℚ) + 1) * g) / (rows : ℚ)
  ⟨startX + ((i % cols : ℕ) : ℚ) * (cellW + g), g + ((i / cols : ℕ) : ℚ) * (cellH + g),
   cellW, cellH⟩

/-- A minimal image state with geometry left unset. -/
def mkImage (i : ℕ) (z : ℚ) : ImageState := { id := i, url := i, zIndex := some z }

/-- A bitmap with distinct source identity and a 4:3 pixel size. -/
def demoBitmap (i : ℕ) : Bitmap := ⟨i, 400, 300⟩

/-- Four uploaded and decoded images in grid mode with gap 16 (the end-to-end
scenario of the specification). -/
def gridDemoScene : Scene :=
  { layoutMode := LayoutMode.grid
    images := [mkImage 1 1, mkImage 2 2, mkImage 3 3, mkImage 4 4]
    loadedImages := [demoBitmap 1, demoBitmap 2, demoBitmap 3, demoBitmap 4]
    textLayers := []
    watermark := none
    loadedWatermark := none
    background := BackgroundSpec.color (some 0)
    loadedBackground := none
    gap := 16
    globalZoom := 1
    imageFit := ImageFit.cover
    mainZoom := 1
    bgBlur := 10
    bgOpacity := 3 / 10 }

/-- Two images in left-big mode with gap 16. -/
def lb2Scene : Scene :=
  { gridDemoScene with
    layoutMode := LayoutMode.leftBig
    images := [mkImage 1 1, mkImage 2 2]
    loadedImages := [demoBitmap 1, demoBitmap 2] }

/-- One image in left-big mode. -/
def oneBigScene : Scene :=
  { gridDemoScene with
    layoutMode := LayoutMode.leftBig
    images := [mkImage 1 1]
    loadedImages := [demoBitmap 1] }

/-- A fully empty scene in grid mode. -/
def emptyScene : Scene :=
  { gridDemoScene with images := [], loadedImages := [] }

/-- A freeform scene with one complete image, one image with incomplete
geometry, and one image whose bitmap never decoded, in deliberately
scrambled z-order. -/
def ffScene : Scene :=
  { gridDemoScene with
    layoutMode := LayoutMode.freeform
    images :=
      [{ id := 1, url := 1, x := some 40, y := some 30, width := some 100,
         height := some 80, zIndex := some 9 },
       { id := 2, url := 2, x := some 10, y := none, width := some 100,
         height := some 80, zIndex := some 1 },
       { id := 3, url := 3, x := some 5, y := some 5, width := some 50,
         height := some 50, zIndex := some 4 }]
    loadedImages := [demoBitmap 1, demoBitmap 2] }

/-- The text layer of the non-freeform pointer-down counterexample. -/
def cexTextLayer : TextLayer :=
  { id := 3, unitWidth := 1, x := 100, y := 100, fontSize := 48, fontFamily := 0,
    color := 0, rotation := 0, shadow := true, backgroundColor := 0,
    backgroundOpacity := 1 / 2, padding := 10 }

/-- A grid-mode scene holding one text layer. -/
def cexGridScene : Scene :=
  { gridDemoScene with
    images := []
    loadedImages := []
    textLayers := [cexTextLayer] }

/-- A text layer with rotation 0 and a 30×20 padded box for the hit-test
witness. -/
def demoLayer : TextLayer :=
  { id := 0, unitWidth := 2, x := 100, y := 100, fontSize := 10, fontFamily := 0,
    color := 0, rotation := 0, shadow := false, backgroundColor := 0,
    backgroundOpacity := 0, padding := 5 }

/-- A freeform image with complete geometry for the resize witness. -/
def resizeDemoImage : ImageState :=
  { id := 7, url := 7, x := some 100, y := some 50, width := some 300,
    height := some 200 }

/-- A scene holding only a watermark (aspect ratio 2, size 20%, top-left),
used to compare the two renderers under anisotropic scaling. -/
def wmCexScene : Scene :=
  { gridDemoScene with
    images := []
    loadedImages := []
    watermark := some { opacity := 1 / 2, size := 20, position := WatermarkPosition.topLeft }
    loadedWatermark := some ⟨9, 100, 50⟩ }

lemma foldl_max_init_le (l : List ℚ) (a : ℚ) : a ≤ l.foldl max a := by
  induction l generalizing a with
  | nil => exact le_refl a
  | cons b t ih => exact le_trans (le_max_left a b) (ih (max a b))

lemma mem_le_foldl_max (l : List ℚ) (a x : ℚ) (hx : x ∈ l) : x ≤ l.foldl max a := by
  induction l generalizing a with
  | nil => cases hx
  | cons b t ih =>
    rcases List.mem_cons.mp hx with rfl | hxt
    · exact le_trans (le_max_right a x) (foldl_max_init_le t (max a x))
    · exact ih (max a b) hxt

lemma foldl_min_init_le (l : List ℚ) (a : ℚ) : l.foldl min a ≤ a := by
  induction l generalizing a with
  | nil => exact le_refl a
  | cons b t ih => exact le_trans (ih (min a b)) (min_le_left a b)

lemma foldl_min_le_mem (l : List ℚ) (a x : ℚ) (hx : x ∈ l) : l.foldl min a ≤ x := by
  induction l generalizing a with
  | nil => cases hx
  | cons b t ih =>
    rcases List.mem_cons.mp hx with rfl | hxt
    · exact le_trans (foldl_min_init_le t (min a x)) (min_le_right a x)
    · exact ih (min a b) hxt

/-- C4: while a bottom-right resize of a free-placement image is in progress,
each pointer move recomputes the image's width as `max(20, pointerX - x)` and
its height as `max(20, pointerY - y)`, independently per axis, so neither
dimension can drop below 20; the list-level move handler is exactly the map
of this per-image update. -/
theorem resize_clamps (ist : InteractionState) (mx my : ℚ) (img : ImageState)
    (x y : ℚ) (hmode : ist.mode = IMode.resizingBr) (hid : ist.id = some img.id)
    (hx : img.x = some x) (hy : img.y = some y) :
    (moveUpdateImage ist mx my img).width = some (max 20 (mx - x)) ∧
    (moveUpdateImage ist mx my img).height = some (max 20 (my - y)) ∧
    (∀ w, (moveUpdateImage ist mx my img).width = some w → 20 ≤ w) ∧
    (∀ h, (moveUpdateImage ist mx my img).height = some h → 20 ≤ h) ∧
    (∀ imgs : List ImageState, ist.target = some ITarget.image →
      pointerMoveImages ist mx my imgs = imgs.map (moveUpdateImage ist mx my)) := by
  have hupd : moveUpdateImage ist mx my img =
      { img with
          width := some (max 20 (mx - x))
          height := some (max 20 (my - y)) } := by
    unfold moveUpdateImage
    rw [if_neg (by simp [hid]), if_neg (by simp [hmode]),
      if_pos ⟨hmode, by simp [hx], by simp [hy]⟩]
    simp [hx, hy]
  refine ⟨by rw [hupd], by rw [hupd], ?_, ?_, ?_⟩
  · intro w hw
    rw [hupd] at hw
    simp only [Option.some.injEq] at hw
    rw [← hw]
    exact le_max_left 20 (mx - x)
  · intro h hh
    rw [hupd] at hh
    simp only [Option.some.injEq] at hh
    rw [← hh]
    exact le_max_left 20 (my - y)
  · intro imgs htarget
    unfold pointerMoveImages
    rw [if_neg (by simp [hmode]), if_neg (by simp [htarget]),
      if_pos ⟨htarget, by simp [hid]⟩]

/-- Witness for C4 at a concrete resize: pointer far left of the image pins
the width at 20 while the height follows the pointer. -/
theorem resize_clamps_witness :
    (moveUpdateImage ⟨IMode.resizingBr, some ITarget.image, some 7, some 0, some 0⟩
        10 500 resizeDemoImage).width = some 20 ∧
    (moveUpdateImage ⟨IMode.resizingBr, some ITarget.image, some 7, some 0, some 0⟩
        10 500 resizeDemoImage).height = some 450 := by
  have h := resize_clamps ⟨IMode.resizingBr, some ITarget.image, some 7, some 0, some 0⟩
    10 500 resizeDemoImage 100 50 rfl rfl rfl rfl
  refine ⟨?_, ?_⟩
  · rw [h.1]; norm_num [max_def]
  · rw [h.2.1]; norm_num [max_def]

/-- C6: `bringToFront` gives the target a z-index strictly above every other
image's and leaves every other image untouched; `sendToBack` gives it a
z-index strictly below every other image's and leaves every other image
untouched. -/
theorem zOrderOps_correct (imgs : List ImageState) (targetId : ℕ) :
    ((∀ a ∈ bringToFront targetId imgs, a.id = targetId →
        ∀ b ∈ bringToFront targetId imgs, b.id ≠ targetId → zKey b < zKey a) ∧
      (∀ k, ∀ hk : k < imgs.length, (imgs.get ⟨k, hk⟩).id ≠ targetId →
        (bringToFront targetId imgs)[k]? = some (imgs.get ⟨k, hk⟩))) ∧
    ((∀ a ∈ sendToBack targetId imgs, a.id = targetId →
        ∀ b ∈ sendToBack targetId imgs, b.id ≠ targetId → zKey a < zKey b) ∧
      (∀ k, ∀ hk : k < imgs.length, (imgs.get ⟨k, hk⟩).id ≠ targetId →
        (sendToBack targetId imgs)[k]? = some (imgs.get ⟨k, hk⟩))) := by
  constructor
  · constructor
    · intro a ha haid b hb hbid
      simp only [bringToFront] at ha hb
      obtain ⟨a0, ha0, rfl⟩ := List.mem_map.mp ha
      obtain ⟨b0, hb0, rfl⟩ := List.mem_map.mp hb
      have ha0id : a0.id = targetId := by
        by_contra h
        rw [if_neg h] at haid
        exact h haid
      have hb0id : ¬b0.id = targetId := by
        intro h
        apply hbid
        rw [if_pos h]
        exact h
      rw [if_pos ha0id, if_neg hb0id]
      have hble : zKey b0 ≤ (imgs.map zKey).foldl max 0 :=
        mem_le_foldl_max _ 0 _ (List.mem_map_of_mem zKey hb0)
      exact lt_of_le_of_lt hble (lt_add_one _)
    · intro k hk hkid
      simp only [bringToFront]
      rw [List.getElem?_map, List.getElem?_eq_getElem hk, Option.map_some',
        if_neg (show ¬(imgs[k]).id = targetId from hkid)]
      rfl
  · constructor
    · intro a ha haid b hb hbid
      simp only [sendToBack] at ha hb
      obtain ⟨a0, ha0, rfl⟩ := List.mem_map.mp ha
      obtain ⟨b0, hb0, rfl⟩ := List.mem_map.mp hb
      have ha0id : a0.id = targetId := by
        by_contra h
        rw [if_neg h] at haid
        exact h haid
      have hb0id : ¬b0.id = targetId := by
        intro h
        apply hbid
        rw [if_pos h]
        exact h
      rw [if_pos ha0id, if_neg hb0id]
      have hble : (imgs.map zKey).foldl min 0 ≤ zKey b0 :=
        foldl_min_le_mem _ 0 _ (List.mem_map_of_mem zKey hb0)
      exact lt_of_lt_of_le (sub_one_lt _) hble
    · intro k hk hkid
      simp only [sendToBack]
      rw [List.getElem?_map, List.getElem?_eq_getElem hk, Option.map_some',
        if_neg (show ¬(imgs[k]).id = targetId from hkid)]
      rfl

/-- Witness for C6 on a two-image list: the raised image ends strictly above
the other, the lowered image strictly below. -/
theorem zOrderOps_correct_witness :
    zKey (mkImage 2 3) < zKey (mkImage 1 6) ∧
    zKey (mkImage 1 (-1)) < zKey (mkImage 2 3) := by
  constructor
  · exact (zOrderOps_correct [mkImage 1 5, mkImage 2 3] 1).1.1
      (mkImage 1 6)
      (by norm_num [bringToFront, mkImage, zKey, max_def])
      (by norm_num [mkImage])
      (mkImage 2 3)
      (by norm_num [bringToFront, mkImage, zKey, max_def])
      (by norm_num [mkImage])
  · exact (zOrderOps_correct [mkImage 1 5, mkImage 2 3] 1).2.1
      (mkImage 1 (-1))
      (by norm_num [sendToBack, mkImage, zKey, min_def])
      (by norm_num [mkImage])
      (mkImage 2 3)
      (by norm_num [sendToBack, mkImage, zKey, min_def])
      (by norm_num [mkImage])

lemma zKey_le_uploadMaxZ (existing : List ImageState) (pre : ImageState)
    (hpre : pre ∈ existing) : zKey pre ≤ uploadMaxZ existing := by
  unfold uploadMaxZ
  rw [if_pos (List.length_pos_of_mem hpre)]
  have hmem : zKey pre ∈ existing.map zKey := List.mem_map_of_mem zKey hpre
  cases hz : existing.map zKey with
  | nil => rw [hz] at hmem; cases hmem
  | cons z zs =>
    rw [hz] at hmem
    unfold jsMaxList
    rcases List.mem_cons.mp hmem with rfl | hmem'
    · exact foldl_max_init_le zs (zKey pre)
    · exact mem_le_foldl_max zs z _ hmem'

/-- C9: the j-th uploaded file of a batch gets default freeform geometry
`(50+30j, 50+30j, 300, 200)` and z-index `(max existing z, or 0 if none) + j + 1`,
appended after the existing images; hence every new image sits strictly above
every pre-existing image and the batch keeps its order. -/
theorem upload_defaults (existing : List ImageState) (baseId count : ℕ) :
    (∀ j, j < count →
      (uploadNewImages existing baseId count)[j]? =
        some { id := baseId + j
               url := baseId + j
               x := some (50 + (j : ℚ) * 30)
               y := some (50 + (j : ℚ) * 30)
               width := some 300
               height := some 200
               zIndex := some (uploadMaxZ existing + (j : ℚ) + 1) }) ∧
    uploadAppend existing baseId count = existing ++ uploadNewImages existing baseId count ∧
    (∀ pre ∈ existing, ∀ nw ∈ uploadNewImages existing baseId count,
      zKey pre < zKey nw) ∧
    (∀ j k, j < k → k < count →
      ∀ hj : j < (uploadNewImages existing baseId count).length,
      ∀ hk : k < (uploadNewImages existing baseId count).length,
      zKey ((uploadNewImages existing baseId count).get ⟨j, hj⟩) <
        zKey ((uploadNewImages existing baseId count).get ⟨k, hk⟩)) := by
  refine ⟨?_, rfl, ?_, ?_⟩
  · intro j hj
    unfold uploadNewImages
    rw [List.getElem?_map, List.getElem?_range hj]
    rfl
  · intro pre hpre nw hnw
    unfold uploadNewImages at hnw
    obtain ⟨j, hj, rfl⟩ := List.mem_map.mp hnw
    have h1 : zKey pre ≤ uploadMaxZ existing := zKey_le_uploadMaxZ existing pre hpre
    have h2 : (0 : ℚ) ≤ (j : ℚ) := Nat.cast_nonneg j
    simp only [zKey] at h1 ⊢
    simp only [Option.getD_some]
    linarith
  · intro j k hjk hk hj' hk'
    unfold uploadNewImages
    simp only [List.get_eq_getElem, List.getElem_map, List.getElem_range]
    simp only [zKey, Option.getD_some]
    have : (j : ℚ) < (k : ℚ) := by exact_mod_cast hjk
    linarith

/-- Witness for C9: uploading two files onto one existing image of z-index 5
places the second file at `(80, 80)` with z-index 7. -/
theorem upload_defaults_witness :
    (uploadNewImages [mkImage 1 5] 10 2)[1]? =
      some { id := 11
             url := 11
             x := some 80
             y := some 80
             width := some 300
             height := some 200
             zIndex := some 7 } := by
  have h := (upload_defaults [mkImage 1 5] 10 2).1 1 (by norm_num)
  rw [h]
  norm_num [uploadMaxZ, jsMaxList, zKey, mkImage]

lemma filterMap_map_eq_map {α β γ : Type} (l : List α) (G : α → β) (g : β → Option γ)
    (F : α → γ) (h : ∀ a, g (G a) = some (F a)) : (l.map G).filterMap g = l.map F := by
  induction l with
  | nil => rfl
  | cons a t ih => simp only [List.map_cons, List.filterMap_cons, h, ih]

lemma imagePaints_append (l1 l2 : List DrawOp) :
    imagePaints (l1 ++ l2) = imagePaints l1 ++ imagePaints l2 :=
  List.filter_append l1 l2

lemma imagePaints_backgroundOps (W H : ℚ) (sc : Scene) :
    imagePaints (backgroundOps W H sc) = [] := by
  unfold imagePaints backgroundOps
  cases sc.background <;> cases sc.loadedBackground <;> simp [isImagePaint]

lemma imagePaints_previewWatermarkOps (W H : ℚ) (sc : Scene) :
    imagePaints (previewWatermarkOps W H sc) = [] := by
  unfold imagePaints previewWatermarkOps
  cases sc.watermark <;> cases sc.loadedWatermark <;> simp [isImagePaint]

lemma imagePaints_exportWatermarkOps (EW EH sX sY : ℚ) (sc : Scene) :
    imagePaints (exportWatermarkOps EW EH sX sY sc) = [] := by
  unfold imagePaints exportWatermarkOps
  cases sc.watermark <;> cases sc.loadedWatermark <;> simp [isImagePaint]

lemma imagePaints_previewTextOps (sc : Scene) :
    imagePaints (previewTextOps sc) = [] := by
  unfold imagePaints previewTextOps
  induction sc.textLayers with
  | nil => rfl
  | cons a t ih => simp only [List.map_cons, List.filter_cons] at ih ⊢; simp [isImagePaint]

lemma imagePaints_exportTextOps (sX sY : ℚ) (sc : Scene) :
    imagePaints (exportTextOps sX sY sc) = [] := by
  unfold imagePaints exportTextOps
  induction sc.textLayers with
  | nil => rfl
  | cons a t ih => simp only [List.map_cons, List.filter_cons] at ih ⊢; simp [isImagePaint]

lemma previewLayoutOps_nil (W H : ℚ) (sc : Scene) (h : sc.loadedImages = [])
    (hmode : sc.layoutMode ≠ LayoutMode.freeform) : previewLayoutOps W H sc = [] := by
  unfold previewLayoutOps
  cases hm : sc.layoutMode <;> first
  | exact absurd hm hmode
  | simp [h]

lemma exportLayoutOps_nil (EW EH sX sY : ℚ) (sc : Scene) (h : sc.loadedImages = [])
    (hmode : sc.layoutMode ≠ LayoutMode.freeform) : exportLayoutOps EW EH sX sY sc = [] := by
  unfold exportLayoutOps
  cases hm : sc.layoutMode <;> first
  | exact absurd hm hmode
  | simp [h]

/-- C7: with no loaded images, every algorithmic layout mode paints no image
placement in either renderer; with exactly one loaded image, each of the four
`-big` modes paints exactly the big image and skips the secondary-grid step
(so no division by a zero column count is ever executed). -/
theorem empty_and_single_layouts (W H EW EH sw sh : ℚ) (sc : Scene) :
    (sc.loadedImages = [] → sc.layoutMode ≠ LayoutMode.freeform →
      imagePaints (previewOps W H sc) = [] ∧
      imagePaints (exportOps EW EH sw sh sc) = []) ∧
    (∀ bmp, sc.loadedImages = [bmp] →
      (sc.layoutMode = LayoutMode.leftBig ∨ sc.layoutMode = LayoutMode.rightBig ∨
        sc.layoutMode = LayoutMode.topBig ∨ sc.layoutMode = LayoutMode.bottomBig) →
      ¬(sc.images = [] ∧ sc.textLayers = [] ∧ sc.watermark = none) →
      (imagePaints (previewOps W H sc)).length = 1 ∧
      (imagePaints (exportOps EW EH sw sh sc)).length = 1) := by
  constructor
  · intro h hmode
    constructor
    · unfold previewOps
      rw [imagePaints_append, imagePaints_backgroundOps]
      by_cases he : sc.images = [] ∧ sc.textLayers = [] ∧ sc.watermark = none
      · rw [if_pos he]
        simp [imagePaints, isImagePaint]
      · rw [if_neg he, imagePaints_append, imagePaints_append,
          previewLayoutOps_nil W H sc h hmode, imagePaints_previewWatermarkOps,
          imagePaints_previewTextOps]
        rfl
    · unfold exportOps
      rw [imagePaints_append, imagePaints_append, imagePaints_append,
        imagePaints_backgroundOps, exportLayoutOps_nil _ _ _ _ sc h hmode,
        imagePaints_exportWatermarkOps, imagePaints_exportTextOps]
      rfl
  · intro bmp h hmode hne
    have hlen : ¬(1 < sc.loadedImages.length) := by simp [h]
    have hprev : imagePaints (previewOps W H sc) =
        imagePaints (previewLayoutOps W H sc) := by
      unfold previewOps
      rw [imagePaints_append, imagePaints_backgroundOps, if_neg hne,
        imagePaints_append, imagePaints_append, imagePaints_previewWatermarkOps,
        imagePaints_previewTextOps]
      simp
    have hexp : imagePaints (exportOps EW EH sw sh sc) =
        imagePaints (exportLayoutOps EW EH (EW / sw) (EH / sh) sc) := by
      unfold exportOps
      rw [imagePaints_append, imagePaints_append, imagePaints_append,
        imagePaints_backgroundOps, imagePaints_exportWatermarkOps,
        imagePaints_exportTextOps]
      simp
    rw [hprev, hexp]
    unfold previewLayoutOps exportLayoutOps
    rcases hmode with hm | hm | hm | hm <;>
      simp [hm, h, hlen, imagePaints, isImagePaint, previewDrawImage, exportDrawImage]

/-- Witness for C7: a loaded-image-free grid scene paints no image, and a
single-image left-big scene paints exactly one. -/
theorem empty_and_single_layouts_witness :
    imagePaints (previewOps 800 600 emptyScene) = [] ∧
    (imagePaints (previewOps 800 600 oneBigScene)).length = 1 := by
  constructor
  · exact ((empty_and_single_layouts 800 600 2000 1500 800 600 emptyScene).1
      rfl (by decide)).1
  · exact ((empty_and_single_layouts 800 600 2000 1500 800 600 oneBigScene).2
      (demoBitmap 1) rfl (Or.inl rfl) (by decide)).1

lemma imageClips_append (l1 l2 : List DrawOp) :
    imageClips (l1 ++ l2) = imageClips l1 ++ imageClips l2 :=
  List.filterMap_append l1 l2 _

lemma imageClips_backgroundOps (W H : ℚ) (sc : Scene) :
    imageClips (backgroundOps W H sc) = [] := by
  unfold imageClips backgroundOps
  cases sc.background <;> cases sc.loadedBackground <;> simp [clipOf]

lemma imageClips_previewWatermarkOps (W H : ℚ) (sc : Scene) :
    imageClips (previewWatermarkOps W H sc) = [] := by
  unfold imageClips previewWatermarkOps
  cases sc.watermark <;> cases sc.loadedWatermark <;> simp [clipOf]

lemma imageClips_previewTextOps (sc : Scene) :
    imageClips (previewTextOps sc) = [] := by
  unfold imageClips previewTextOps
  induction sc.textLayers with
  | nil => rfl
  | cons a t ih =>
    simp only [List.map_cons, List.filterMap_cons] at ih ⊢
    simp [clipOf, ih]

lemma imageClips_cells (l : List Bitmap) (fit : ImageFit) (zoom : ℚ)
    (fx fy : ℕ → ℚ) (cw ch ez : ℚ) :
    imageClips (l.enum.map fun p =>
      previewDrawImage fit zoom p.2 (fx p.1) (fy p.1) cw ch ez) =
      (List.range l.length).map fun i => (⟨fx i, fy i, cw, ch⟩ : Rect) := by
  unfold imageClips
  rw [filterMap_map_eq_map l.enum
    (fun p => previewDrawImage fit zoom p.2 (fx p.1) (fy p.1) cw ch ez) clipOf
    (fun p : ℕ × Bitmap => (⟨fx p.1, fy p.1, cw, ch⟩ : Rect)) (fun p => rfl)]
  rw [← List.enum_map_fst l, List.map_map]
  rfl

/-- C2: in grid mode the preview places image `i` (0-based) in the cell given
by `cols = ceil(sqrt n)`, `rows = ceil(n/cols)`, cell size
`((W-(cols+1)g)/cols, (H-(rows+1)g)/rows)`, origin
`(g + (i mod cols)(cellW+g), g + (i div cols)(cellH+g))`. -/
theorem grid_layout_formula (W H : ℚ) (sc : Scene)
    (hmode : sc.layoutMode = LayoutMode.grid)
    (hne : ¬(sc.images = [] ∧ sc.textLayers = [] ∧ sc.watermark = none)) :
    imageClips (previewOps W H sc) =
      (List.range sc.loadedImages.length).map
        (gridCellRect W H sc.gap sc.loadedImages.length) := by
  unfold previewOps
  rw [imageClips_append, imageClips_backgroundOps, if_neg hne, imageClips_append,
    imageClips_append, imageClips_previewWatermarkOps, imageClips_previewTextOps]
  simp only [List.append_nil, List.nil_append]
  simp only [previewLayoutOps, hmode]
  exact imageClips_cells sc.loadedImages sc.imageFit sc.globalZoom
    (fun i => sc.gap + ((i % ceilSqrt sc.loadedImages.length : ℕ) : ℚ) *
      ((W - ((ceilSqrt sc.loadedImages.length : ℚ) + 1) * sc.gap) /
          (ceilSqrt sc.loadedImages.length : ℚ) + sc.gap))
    (fun i => sc.gap + ((i / ceilSqrt sc.loadedImages.length : ℕ) : ℚ) *
      ((H - ((ceilDivNat sc.loadedImages.length (ceilSqrt sc.loadedImages.length) : ℚ) + 1) *
            sc.gap) /
          (ceilDivNat sc.loadedImages.length (ceilSqrt sc.loadedImages.length) : ℚ) + sc.gap))
    ((W - ((ceilSqrt sc.loadedImages.length : ℚ) + 1) * sc.gap) /
      (ceilSqrt sc.loadedImages.length : ℚ))
    ((H - ((ceilDivNat sc.loadedImages.length (ceilSqrt sc.loadedImages.length) : ℚ) + 1) *
        sc.gap) /
      (ceilDivNat sc.loadedImages.length (ceilSqrt sc.loadedImages.length) : ℚ))
    1

/-- Witness for C2: four images on an 800×600 canvas with gap 16 produce a
2×2 grid of 376×276 cells at origins (16,16), (408,16), (16,308), (408,308). -/
theorem grid_layout_formula_witness :
    imageClips (previewOps 800 600 gridDemoScene) =
      [⟨16, 16, 376, 276⟩, ⟨408, 16, 376, 276⟩,
       ⟨16, 308, 376, 276⟩, ⟨408, 308, 376, 276⟩] := by
  rw [grid_layout_formula 800 600 gridDemoScene rfl (by simp [gridDemoScene])]
  have hc : ceilSqrt 4 = 2 := by norm_num [ceilSqrt]
  have hr : ceilDivNat 4 2 = 2 := by norm_num [ceilDivNat]
  show (List.range 4).map (gridCellRect 800 600 16 4) = _
  norm_num [List.range_succ, gridCellRect, hc, hr]

lemma imageClips_singleton_draw (fit : ImageFit) (zoom : ℚ) (img : Bitmap)
    (x y w h ez : ℚ) :
    imageClips [previewDrawImage fit zoom img x y w h ez] = [⟨x, y, w, h⟩] := rfl

lemma sideBig_layoutOps (W H : ℚ) (sc : Scene) (img0 : Bitmap) (rest : List Bitmap)
    (hmode : sc.layoutMode = LayoutMode.leftBig ∨ sc.layoutMode = LayoutMode.rightBig)
    (hli : sc.loadedImages = img0 :: rest) (hrest : rest ≠ []) :
    imageClips (previewLayoutOps W H sc) =
      sideBigRect (sc.layoutMode = LayoutMode.leftBig) W H sc.gap ::
        (List.range rest.length).map
          (sideCellRect (sc.layoutMode = LayoutMode.leftBig) W H sc.gap rest.length) := by
  have hco : (1 : ℕ) < (img0 :: rest).length := by
    have := List.length_pos_of_ne_nil hrest
    simp only [List.length_cons]
    omega
  obtain ⟨mode, images, loaded, texts, wm, lwm, bg, lbg, gap, gz, fit, mz, bb, bo, sel⟩ := sc
  dsimp only at hli hmode ⊢
  subst hli
  rcases hmode with hm | hm <;> subst hm
  · show imageClips ([previewDrawImage fit gz img0
        (if LayoutMode.leftBig = LayoutMode.leftBig then gap else W / 2 + gap / 2)
        gap (W / 2 - gap * (3 / 2)) (H - gap * 2) 1] ++
        (if 1 < (img0 :: rest).length then _ else [])) = _
    rw [if_pos hco, imageClips_append, imageClips_singleton_draw, if_pos rfl]
    rw [List.singleton_append]
    refine congrArg₂ List.cons ?_ ?_
    · simp [sideBigRect]
    · refine (imageClips_cells rest fit gz
        (fun i => (if LayoutMode.leftBig = LayoutMode.leftBig then W / 2 + gap / 2 else gap) +
          ((i % max 1 (ceilSqrt rest.length) : ℕ) : ℚ) *
            ((W / 2 - gap * (3 / 2) - (((max 1 (ceilSqrt rest.length) : ℕ) : ℚ) - 1) * gap) /
                ((max 1 (ceilSqrt rest.length) : ℕ) : ℚ) + gap))
        (fun i => gap + ((i / max 1 (ceilSqrt rest.length) : ℕ) : ℚ) *
          ((H - (((max 1 (ceilDivNat rest.length (max 1 (ceilSqrt rest.length))) : ℕ) : ℚ) + 1) *
                gap) /
              ((max 1 (ceilDivNat rest.length (max 1 (ceilSqrt rest.length))) : ℕ) : ℚ) + gap))
        ((W / 2 - gap * (3 / 2) - (((max 1 (ceilSqrt rest.length) : ℕ) : ℚ) - 1) * gap) /
          ((max 1 (ceilSqrt rest.length) : ℕ) : ℚ))
        ((H - (((max 1 (ceilDivNat rest.length (max 1 (ceilSqrt rest.length))) : ℕ) : ℚ) + 1) *
            gap) /
          ((max 1 (ceilDivNat rest.length (max 1 (ceilSqrt rest.length))) : ℕ) : ℚ))
        1).trans (List.map_congr_left ?_)
      intro i _
      simp [sideCellRect]
  · show imageClips ([previewDrawImage fit gz img0
        (if LayoutMode.rightBig = LayoutMode.leftBig then gap else W / 2 + gap / 2)
        gap (W / 2 - gap * (3 / 2)) (H - gap * 2) 1] ++
        (if 1 < (img0 :: rest).length then _ else [])) = _
    rw [if_pos hco, imageClips_append, imageClips_singleton_draw,
      if_neg (by simp : ¬(LayoutMode.rightBig = LayoutMode.leftBig))]
    rw [List.singleton_append]
    refine congrArg₂ List.cons ?_ ?_
    · simp [sideBigRect]
    · refine (imageClips_cells rest fit gz
        (fun i => (if LayoutMode.rightBig = LayoutMode.leftBig then W / 2 + gap / 2 else gap) +
          ((i % max 1 (ceilSqrt rest.length) : ℕ) : ℚ) *
            ((W / 2 - gap * (3 / 2) - (((max 1 (ceilSqrt rest.length) : ℕ) : ℚ) - 1) * gap) /
                ((max 1 (ceilSqrt rest.length) : ℕ) : ℚ) + gap))
        (fun i => gap + ((i / max 1 (ceilSqrt rest.length) : ℕ) : ℚ) *
          ((H - (((max 1 (ceilDivNat rest.length (max 1 (ceilSqrt rest.length))) : ℕ) : ℚ) + 1) *
                gap) /
              ((max 1 (ceilDivNat rest.length (max 1 (ceilSqrt rest.length))) : ℕ) : ℚ) + gap))
        ((W / 2 - gap * (3 / 2) - (((max 1 (ceilSqrt rest.length) : ℕ) : ℚ) - 1) * gap) /
          ((max 1 (ceilSqrt rest.length) : ℕ) : ℚ))
        ((H - (((max 1 (ceilDivNat rest.length (max 1 (ceilSqrt rest.length))) : ℕ) : ℚ) + 1) *
            gap) /
          ((max 1 (ceilDivNat rest.length (max 1 (ceilSqrt rest.length))) : ℕ) : ℚ))
        1).trans (List.map_congr_left ?_)
      intro i _
      simp [sideCellRect]

/-- C3 counterexample: with two images in left-big mode on 800×600 at gap 16,
the single secondary cell actually spans the full 376-unit half-width column
(width `(availableWidth - (cols-1)·g)/cols = 376` at origin x = 408), whereas
the grid cell-size formula of the claim (`(cols+1)` gaps across the width)
applied inside the 376-unit column gives width 344 — the secondary images are
not placed by the same cell-size formula as grid mode. -/
theorem sideBig_claim_counterexample :
    imageClips (previewOps 800 600 lb2Scene) =
      [⟨16, 16, 376, 568⟩, ⟨408, 16, 376, 568⟩] ∧
    (gridCellRect (800 / 2 - 16 * (3 / 2)) 600 16 1 0).w = 344 ∧
    (344 : ℚ) ≠ 376 := by
  have hc : ceilSqrt 1 = 1 := by norm_num [ceilSqrt]
  have hr : ceilDivNat 1 1 = 1 := by norm_num [ceilDivNat]
  refine ⟨?_, by norm_num [gridCellRect, hc, hr], by norm_num⟩
  unfold previewOps
  rw [imageClips_append, imageClips_backgroundOps,
    if_neg (by simp [lb2Scene, gridDemoScene, mkImage]), imageClips_append,
    imageClips_append, imageClips_previewWatermarkOps, imageClips_previewTextOps]
  simp only [List.append_nil, List.nil_append]
  rw [sideBig_layoutOps 800 600 lb2Scene (demoBitmap 1) [demoBitmap 2]
    (Or.inl rfl) rfl (by simp)]
  norm_num [sideBigRect, sideCellRect, List.range_succ, hc, hr, lb2Scene, gridDemoScene]

/-- C3 amended: in left-big / right-big mode with at least two loaded images,
the first image fills the half-width column (minus 1.5 gaps, full height
minus 2 gaps) on its named side, and the remaining images tile the other
half-width column with grid-style `cols`/`rows` (floored at 1) and the grid
cell-height formula, but with cell width `(availableWidth - (cols-1)·gap)/cols`
over the column and no leading gap inside it. -/
theorem sideBig_layout_formula (W H : ℚ) (sc : Scene)
    (hmode : sc.layoutMode = LayoutMode.leftBig ∨ sc.layoutMode = LayoutMode.rightBig)
    (hne : ¬(sc.images = [] ∧ sc.textLayers = [] ∧ sc.watermark = none))
    (hlen : 2 ≤ sc.loadedImages.length) :
    imageClips (previewOps W H sc) =
      sideBigRect (sc.layoutMode = LayoutMode.leftBig) W H sc.gap ::
        (List.range (sc.loadedImages.length - 1)).map
          (sideCellRect (sc.layoutMode = LayoutMode.leftBig) W H sc.gap
            (sc.loadedImages.length - 1)) := by
  unfold previewOps
  rw [imageClips_append, imageClips_backgroundOps, if_neg hne, imageClips_append,
    imageClips_append, imageClips_previewWatermarkOps, imageClips_previewTextOps]
  simp only [List.append_nil, List.nil_append]
  rcases hli : sc.loadedImages with _ | ⟨img0, rest⟩
  · rw [hli] at hlen; simp at hlen
  · have hrest : rest ≠ [] := by
      intro h
      rw [hli, h] at hlen
      simp at hlen
    rw [sideBig_layoutOps W H sc img0 rest hmode hli hrest]
    simp only [hli, List.length_cons, Nat.add_sub_cancel]

/-- Witness for C3 (amended): the two-image left-big scene at 800×600, gap 16:
big image cell (16,16,376,568), secondary cell (408,16,376,568). -/
theorem sideBig_layout_formula_witness :
    imageClips (previewOps 800 600 lb2Scene) =
      [⟨16, 16, 376, 568⟩, ⟨408, 16, 376, 568⟩] := by
  rw [sideBig_layout_formula 800 600 lb2Scene (Or.inl rfl)
    (by simp [lb2Scene, gridDemoScene, mkImage]) (by simp [lb2Scene, gridDemoScene])]
  have hc : ceilSqrt 1 = 1 := by norm_num [ceilSqrt]
  have hr : ceilDivNat 1 1 = 1 := by norm_num [ceilDivNat]
  norm_num [lb2Scene, gridDemoScene, sideBigRect, sideCellRect, List.range_succ, hc, hr]

/-- C5: the text hit test rotates the pointer delta by the negative layer
angle and tests the centered padded box, so (a) the pointer at exactly
`(layer.x, layer.y)` hits at every rotation, and (b) a pointer displaced just
beyond the box's half-width along the box's local x-axis misses at every
rotation. -/
theorem textHit_rotation (layer : TextLayer)
    (hw : 0 < measuredTextWidth layer layer.fontSize + layer.padding * 2)
    (hh : 0 < layer.fontSize + layer.padding * 2) :
    textHitAt layer layer.x layer.y ∧
    (∀ ε : ℝ, 0 < ε →
      ¬textHitReal layer
        ((layer.x : ℝ) +
          (((measuredTextWidth layer layer.fontSize + layer.padding * 2 : ℚ) : ℝ) / 2 + ε) *
            Real.cos ((layer.rotation : ℝ) * Real.pi / 180))
        ((layer.y : ℝ) +
          (((measuredTextWidth layer layer.fontSize + layer.padding * 2 : ℚ) : ℝ) / 2 + ε) *
            Real.sin ((layer.rotation : ℝ) * Real.pi / 180))) := by
  have hwR : (0 : ℝ) < ((measuredTextWidth layer layer.fontSize + layer.padding * 2 : ℚ) : ℝ) := by
    exact_mod_cast hw
  have hhR : (0 : ℝ) < ((layer.fontSize + layer.padding * 2 : ℚ) : ℝ) := by
    exact_mod_cast hh
  constructor
  · unfold textHitAt textHitReal
    push_cast
    constructor
    · rw [show ((layer.x : ℝ) - (layer.x : ℝ)) * Real.cos (-((layer.rotation : ℝ) * Real.pi / 180)) -
          ((layer.y : ℝ) - (layer.y : ℝ)) * Real.sin (-((layer.rotation : ℝ) * Real.pi / 180)) = 0 by ring]
      rw [abs_zero]
      push_cast at hwR
      linarith
    · rw [show ((layer.x : ℝ) - (layer.x : ℝ)) * Real.sin (-((layer.rotation : ℝ) * Real.pi / 180)) +
          ((layer.y : ℝ) - (layer.y : ℝ)) * Real.cos (-((layer.rotation : ℝ) * Real.pi / 180)) = 0 by ring]
      rw [abs_zero]
      push_cast at hhR
      linarith
  · intro ε hε hhit
    unfold textHitReal at hhit
    obtain ⟨h1, -⟩ := hhit
    set θ : ℝ := (layer.rotation : ℝ) * Real.pi / 180 with hθ
    set d : ℝ := ((measuredTextWidth layer layer.fontSize + layer.padding * 2 : ℚ) : ℝ) / 2 + ε
      with hd
    have hkey : ((layer.x : ℝ) + d * Real.cos θ - (layer.x : ℝ)) * Real.cos (-θ) -
        ((layer.y : ℝ) + d * Real.sin θ - (layer.y : ℝ)) * Real.sin (-θ) = d := by
      rw [Real.cos_neg, Real.sin_neg]
      have hsc := Real.sin_sq_add_cos_sq θ
      linear_combination d * hsc
    rw [hkey] at h1
    have hdpos : 0 < d := by
      rw [hd]
      linarith
    rw [abs_of_pos hdpos] at h1
    rw [hd] at h1
    linarith

/-- Witness for C5: a rotation-0 layer with a 30-wide padded box is hit at its
center and missed 16 units to the right. -/
theorem textHit_rotation_witness :
    textHitAt demoLayer demoLayer.x demoLayer.y ∧
    ¬textHitReal demoLayer
      ((demoLayer.x : ℝ) +
        (((measuredTextWidth demoLayer demoLayer.fontSize + demoLayer.padding * 2 : ℚ) : ℝ) / 2 + 1) *
          Real.cos ((demoLayer.rotation : ℝ) * Real.pi / 180))
      ((demoLayer.y : ℝ) +
        (((measuredTextWidth demoLayer demoLayer.fontSize + demoLayer.padding * 2 : ℚ) : ℝ) / 2 + 1) *
          Real.sin ((demoLayer.rotation : ℝ) * Real.pi / 180)) := by
  have h := textHit_rotation demoLayer
    (by norm_num [measuredTextWidth, demoLayer])
    (by norm_num [demoLayer])
  exact ⟨h.1, h.2 1 (by norm_num)⟩

/-- C8 amended: a pointer-down in any layout mode other than freeform never
starts an image-targeted interaction and never mutates the image list
(image drag/resize/bring-to-front are reachable only in freeform mode), and
if it hits no text layer it only clears both selections and leaves the
interaction state untouched; text-layer drags, however, can start in any
layout mode. -/
theorem nonfreeform_pointer_down (sc : Scene) (prevInteraction : InteractionState)
    (mx my : ℚ) (hmode : sc.layoutMode ≠ LayoutMode.freeform) :
    ((handlePointerDown sc prevInteraction mx my).interaction = prevInteraction ∨
      (handlePointerDown sc prevInteraction mx my).interaction.target = some ITarget.text) ∧
    (handlePointerDown sc prevInteraction mx my).images = sc.images ∧
    (findHitText mx my sc.textLayers = none →
      handlePointerDown sc prevInteraction mx my =
        ⟨none, none, prevInteraction, sc.images⟩) := by
  unfold handlePointerDown
  cases h : findHitText mx my sc.textLayers with
  | some layer => simp
  | none => simp [hmode]

/-- Witness for C8 (amended): in the grid-mode demo scene (no text layers) a
pointer-down only clears the selection. -/
theorem nonfreeform_pointer_down_witness :
    handlePointerDown gridDemoScene ⟨IMode.idle, none, none, none, none⟩ 5 5 =
      ⟨none, none, ⟨IMode.idle, none, none, none, none⟩, gridDemoScene.images⟩ := by
  have h := nonfreeform_pointer_down gridDemoScene ⟨IMode.idle, none, none, none, none⟩
    5 5 (by simp [gridDemoScene])
  exact h.2.2 rfl

/-- C8 counterexample: in grid mode (not freeform) with one text layer at
(100,100), a pointer-down at (100,100) starts a text drag — it does not
merely clear the selection, so the drag transitions are not confined to
free-placement mode. -/
theorem nonfreeform_pointer_down_counterexample :
    cexGridScene.layoutMode ≠ LayoutMode.freeform ∧
    (handlePointerDown cexGridScene ⟨IMode.idle, none, none, none, none⟩ 100 100).interaction =
      ⟨IMode.dragging, some ITarget.text, some 3, some 0, some 0⟩ := by
  refine ⟨by simp [cexGridScene, gridDemoScene], ?_⟩
  have ht : textHitAt cexTextLayer 100 100 := by
    unfold textHitAt textHitReal
    norm_num [cexTextLayer, measuredTextWidth]
  have hfind : findHitText 100 100 cexGridScene.textLayers = some cexTextLayer := by
    show @ite _ (textHitAt cexTextLayer 100 100) (Classical.propDecidable _)
      (some cexTextLayer) none = some cexTextLayer
    exact if_pos ht
  unfold handlePointerDown
  rw [hfind]
  simp [cexTextLayer, cexGridScene, gridDemoScene]

lemma freePaints_append (l1 l2 : List DrawOp) :
    freePaints (l1 ++ l2) = freePaints l1 ++ freePaints l2 :=
  List.filter_append l1 l2

lemma freePaints_backgroundOps (W H : ℚ) (sc : Scene) :
    freePaints (backgroundOps W H sc) = [] := by
  unfold freePaints backgroundOps
  cases sc.background <;> cases sc.loadedBackground <;> simp [isFreePaint]

lemma freePaints_previewWatermarkOps (W H : ℚ) (sc : Scene) :
    freePaints (previewWatermarkOps W H sc) = [] := by
  unfold freePaints previewWatermarkOps
  cases sc.watermark <;> cases sc.loadedWatermark <;> simp [isFreePaint]

lemma freePaints_exportWatermarkOps (EW EH sX sY : ℚ) (sc : Scene) :
    freePaints (exportWatermarkOps EW EH sX sY sc) = [] := by
  unfold freePaints exportWatermarkOps
  cases sc.watermark <;> cases sc.loadedWatermark <;> simp [isFreePaint]

lemma freePaints_previewTextOps (sc : Scene) :
    freePaints (previewTextOps sc) = [] := by
  unfold freePaints previewTextOps
  induction sc.textLayers with
  | nil => rfl
  | cons a t ih =>
    simp only [List.map_cons, List.filter_cons] at ih ⊢
    simp [isFreePaint, ih]

lemma freePaints_exportTextOps (sX sY : ℚ) (sc : Scene) :
    freePaints (exportTextOps sX sY sc) = [] := by
  unfold freePaints exportTextOps
  induction sc.textLayers with
  | nil => rfl
  | cons a t ih =>
    simp only [List.map_cons, List.filter_cons] at ih ⊢
    simp [isFreePaint, ih]

lemma filter_flatMap_ops {α β : Type} (l : List α) (f : α → List β) (p : β → Bool) :
    (l.flatMap f).filter p = l.flatMap fun a => (f a).filter p := by
  induction l with
  | nil => rfl
  | cons a t ih => simp only [List.flatMap_cons, List.filter_append, ih]

lemma flatMap_eq_filterMap {α β : Type} (l : List α) (g : α → Option β)
    (f : α → List β) (h : ∀ a, f a = (g a).toList) :
    l.flatMap f = l.filterMap g := by
  induction l with
  | nil => rfl
  | cons a t ih =>
    rw [List.flatMap_cons, List.filterMap_cons, h a, ih]
    cases g a <;> simp

lemma filter_key_orderedInsert (a : ImageState) (l : List ImageState) (c : ℚ) :
    (List.orderedInsert (fun x y => zKey x ≤ zKey y) a l).filter (fun s => zKey s == c) =
      if zKey a = c then a :: l.filter (fun s => zKey s == c)
      else l.filter (fun s => zKey s == c) := by
  induction l with
  | nil =>
    simp only [List.orderedInsert, List.filter_cons, List.filter_nil]
    by_cases h : zKey a = c
    · rw [if_pos h]; simp [h]
    · rw [if_neg h]; simp [h]
  | cons b t ih =>
    simp only [List.orderedInsert]
    by_cases hr : zKey a ≤ zKey b
    · rw [if_pos hr]
      by_cases h : zKey a = c
      · rw [if_pos h]
        simp [List.filter_cons, h]
      · rw [if_neg h]
        simp [List.filter_cons, h]
    · rw [if_neg hr]
      rw [List.filter_cons, List.filter_cons]
      by_cases hb : zKey b = c
      · have ha : zKey a ≠ c := by
          intro hac
          exact hr (by rw [hac, hb])
        simp [hb, ih, ha]
      · by_cases h : zKey a = c
        · simp [hb, ih, h]
        · simp [hb, ih, h]

lemma filter_key_sortAscZ (l : List ImageState) (c : ℚ) :
    (sortAscZ l).filter (fun s => zKey s == c) = l.filter (fun s => zKey s == c) := by
  induction l with
  | nil => rfl
  | cons a t ih =>
    show (List.orderedInsert (fun x y => zKey x ≤ zKey y) a (sortAscZ t)).filter
        (fun s => zKey s == c) = _
    rw [filter_key_orderedInsert]
    by_cases h : zKey a = c
    · rw [if_pos h, ih, List.filter_cons]
      simp [h]
    · rw [if_neg h, ih, List.filter_cons]
      simp [h]

/-- C10: in freeform mode both renderers paint exactly the images whose
stored geometry is complete and whose bitmap lookup succeeds — every other
image is skipped without failing — iterating the image list stably sorted by
ascending z-key (`zIndex || 0`); the preview paints the exact stored
rectangle, the export the stored rectangle scaled per axis.  The sort is a
permutation, is sorted by the z-key, and preserves the relative order of
images with equal z-keys (insertion order breaks ties). -/
theorem freeform_skip_and_order (W H EW EH sw sh : ℚ) (sc : Scene)
    (hmode : sc.layoutMode = LayoutMode.freeform) :
    (freePaints (previewOps W H sc) =
      (sortAscZ sc.images).filterMap fun s =>
        match previewFindBitmap sc.loadedImages s, s.x, s.y, s.width, s.height with
        | some bmp, some x, some y, some w, some h =>
          some (DrawOp.freeDraw bmp ⟨x, y, w, h⟩)
        | _, _, _, _, _ => none) ∧
    (freePaints (exportOps EW EH sw sh sc) =
      (sortAscZ sc.images).filterMap fun s =>
        match exportFindBitmap sc.images sc.loadedImages s, s.x, s.y, s.width, s.height with
        | some bmp, some x, some y, some w, some h =>
          some (DrawOp.freeDraw bmp
            ⟨x * (EW / sw), y * (EH / sh), w * (EW / sw), h * (EH / sh)⟩)
        | _, _, _, _, _ => none) ∧
    (sortAscZ sc.images).Perm sc.images ∧
    (sortAscZ sc.images).Pairwise (fun a b => zKey a ≤ zKey b) ∧
    (∀ c : ℚ, (sortAscZ sc.images).filter (fun s => zKey s == c) =
      sc.images.filter (fun s => zKey s == c)) := by
  refine ⟨?_, ?_, List.perm_insertionSort _ _, ?_, filter_key_sortAscZ sc.images⟩
  · unfold previewOps
    by_cases he : sc.images = [] ∧ sc.textLayers = [] ∧ sc.watermark = none
    · rw [if_pos he, freePaints_append, freePaints_backgroundOps, he.1]
      simp [freePaints, isFreePaint, sortAscZ, List.insertionSort]
    · rw [if_neg he, freePaints_append, freePaints_backgroundOps, freePaints_append,
        freePaints_append, freePaints_previewWatermarkOps, freePaints_previewTextOps]
      simp only [List.append_nil, List.nil_append]
      simp only [previewLayoutOps, hmode]
      unfold freePaints
      rw [filter_flatMap_ops]
      apply flatMap_eq_filterMap
      intro s
      cases hb : previewFindBitmap sc.loadedImages s <;> cases hx : s.x <;>
        cases hy : s.y <;> cases hw : s.width <;> cases hh : s.height <;>
          simp [isFreePaint]
  · unfold exportOps
    rw [freePaints_append, freePaints_append, freePaints_append,
      freePaints_backgroundOps, freePaints_exportWatermarkOps, freePaints_exportTextOps]
    simp only [List.append_nil, List.nil_append]
    simp only [exportLayoutOps, hmode]
    unfold freePaints
    rw [filter_flatMap_ops]
    apply flatMap_eq_filterMap
    intro s
    cases hb : exportFindBitmap sc.images sc.loadedImages s <;> cases hx : s.x <;>
      cases hy : s.y <;> cases hw : s.width <;> cases hh : s.height <;>
        simp [isFreePaint]
  · haveI h1 : IsTotal ImageState (fun a b => zKey a ≤ zKey b) :=
      ⟨fun a b => le_total (zKey a) (zKey b)⟩
    haveI h2 : IsTrans ImageState (fun a b => zKey a ≤ zKey b) :=
      ⟨fun a b c hab hbc => le_trans hab hbc⟩
    exact List.sorted_insertionSort (fun a b => zKey a ≤ zKey b) sc.images

/-- Witness for C10: in the freeform demo scene (one complete image, one with
missing geometry, one with no decoded bitmap, scrambled z-order) the preview
paints exactly the complete, decoded image at its stored rectangle. -/
theorem freeform_skip_and_order_witness :
    freePaints (previewOps 100 100 ffScene) =
      [DrawOp.freeDraw (demoBitmap 1) ⟨40, 30, 100, 80⟩] := by
  have h := (freeform_skip_and_order 100 100 200 300 100 100 ffScene rfl).1
  rw [h]
  norm_num [sortAscZ, List.insertionSort, List.orderedInsert, zKey, ffScene,
    gridDemoScene, previewFindBitmap, demoBitmap, List.find?_cons, List.filterMap_cons]
  rfl

/-- C10 counterexample: exporting the freeform demo scene at twice the
preview size paints the surviving image at (80,60,200,160), not at its
stored rectangle (40,30,100,80) — only the preview paints the exact stored
rectangle; the export paints it scaled per axis. -/
theorem freeform_export_rect_counterexample :
    freePaints (exportOps 200 200 100 100 ffScene) =
      [DrawOp.freeDraw (demoBitmap 1) ⟨80, 60, 200, 160⟩] ∧
    (⟨80, 60, 200, 160⟩ : Rect) ≠ ⟨40, 30, 100, 80⟩ := by
  constructor
  · have h := (freeform_skip_and_order 100 100 200 200 100 100 ffScene rfl).2.1
    rw [h]
    norm_num [sortAscZ, List.insertionSort, List.orderedInsert, zKey, ffScene,
      gridDemoScene, exportFindBitmap, demoBitmap, List.findIdx?_cons,
      List.filterMap_cons]
  · intro h
    have := congrArg Rect.x h
    norm_num at this

lemma exportDrawImage_scale (s : ℚ) (hs : s ≠ 0) (fit : ImageFit) (zoom : ℚ)
    (img : Bitmap) (x y w h ez x' y' w' h' : ℚ)
    (hx : x' = s * x) (hy : y' = s * y) (hw : w' = s * w) (hh : h' = s * h) :
    exportDrawImage fit zoom img x' y' w' h' ez =
      DrawOp.scale s (previewDrawImage fit zoom img x y w h ez) := by
  subst hx hy hw hh
  simp only [exportDrawImage, previewDrawImage]
  rw [show s * w / (s * h) = w / h from mul_div_mul_left w h hs]
  split_ifs with hc <;>
    simp only [DrawOp.scale, Rect.scale, DrawOp.imageDraw.injEq, Rect.mk.injEq,
      true_and, and_true] <;>
    constructorm* _ ∧ _ <;>
    first
    | rfl
    | ring

lemma backgroundOps_scale (s sw sh : ℚ) (sc : Scene) :
    backgroundOps (s * sw) (s * sh) sc = (backgroundOps sw sh sc).map (DrawOp.scale s) := by
  unfold backgroundOps
  cases sc.background <;> cases sc.loadedBackground <;>
    simp [DrawOp.scale, Rect.scale]

lemma watermarkOps_scale (s sw sh : ℚ) (sc : Scene) :
    exportWatermarkOps (s * sw) (s * sh) s s sc =
      (previewWatermarkOps sw sh sc).map (DrawOp.scale s) := by
  unfold exportWatermarkOps previewWatermarkOps
  cases sc.watermark with
  | none => cases sc.loadedWatermark <;> simp
  | some wm =>
    cases sc.loadedWatermark with
    | none => simp
    | some lw =>
      cases hp : wm.position <;>
        simp only [hp, List.map_cons, List.map_nil, DrawOp.scale, Rect.scale,
          DrawOp.watermarkDraw.injEq, Rect.mk.injEq, List.cons.injEq, and_true,
          true_and] <;>
        constructorm* _ ∧ _ <;>
        first
        | rfl
        | ring

lemma textOps_scale (s : ℚ) (sc : Scene) :
    exportTextOps s s sc = (previewTextOps sc).map (DrawOp.scale s) := by
  unfold exportTextOps previewTextOps
  rw [List.map_map]
  apply List.map_congr_left
  intro layer _
  simp only [Function.comp_apply, measuredTextWidth]
  split_ifs with h1 h2 <;>
    simp only [DrawOp.scale, Rect.scale, DrawOp.textDraw.injEq, Option.map_some',
      Option.map_none', Prod.mk.injEq, Rect.mk.injEq, true_and, and_true] <;>
    norm_num <;>
    constructorm* _ ∧ _ <;>
    ring

lemma findBitmap_agree (images : List ImageState) (loaded : List Bitmap)
    (hmaps : loaded.map Bitmap.src = images.map ImageState.url)
    (hids : (images.map ImageState.id).Nodup)
    (hurls : (images.map ImageState.url).Nodup)
    (s : ImageState) (hmem : s ∈ images) :
    previewFindBitmap loaded s = exportFindBitmap images loaded s := by
  induction images generalizing loaded with
  | nil => cases hmem
  | cons im ims ih =>
    cases loaded with
    | nil => simp at hmaps
    | cons bm bms =>
      simp only [List.map_cons, List.cons.injEq] at hmaps
      obtain ⟨h0, htail⟩ := hmaps
      simp only [List.map_cons, List.nodup_cons] at hids hurls
      rcases List.mem_cons.mp hmem with rfl | hmem'
      · unfold previewFindBitmap exportFindBitmap
        rw [List.find?_cons_of_pos _ (by simp [h0]), List.findIdx?_cons]
        simp
      · have hid_ne : ¬(im.id = s.id) := by
          intro he
          exact hids.1 (he ▸ List.mem_map_of_mem ImageState.id hmem')
        have hurl_ne : ¬(bm.src = s.url) := by
          intro he
          exact hurls.1 ((h0 ▸ he) ▸ List.mem_map_of_mem ImageState.url hmem')
        unfold previewFindBitmap exportFindBitmap
        rw [List.find?_cons_of_neg _ (by simp [hurl_ne]), List.findIdx?_cons]
        rw [if_neg (by simp [hid_ne]), List.findIdx?_succ]
        have hrec := ih bms htail hids.2 hurls.2 hmem'
        unfold previewFindBitmap exportFindBitmap at hrec
        cases hfi : List.findIdx? (fun i2 => i2.id == s.id) ims with
        | none =>
          rw [hfi] at hrec
          simp only [Option.map_none']
          exact hrec
        | some j =>
          rw [hfi] at hrec
          simp only [Option.map_some']
          rw [hrec]
          simp

lemma flatMap_congr_mem {α β : Type} (l : List α) (f g : α → List β)
    (h : ∀ a ∈ l, f a = g a) : l.flatMap f = l.flatMap g := by
  induction l with
  | nil => rfl
  | cons a t ih =>
    simp only [List.flatMap_cons, h a (List.mem_cons_self a t),
      ih (fun b hb => h b (List.mem_cons_of_mem a hb))]

lemma layoutOps_scale (s sw sh : ℚ) (hs : s ≠ 0) (sc : Scene)
    (hsel : sc.selectedImageId = none)
    (hmaps : sc.loadedImages.map Bitmap.src = sc.images.map ImageState.url)
    (hids : (sc.images.map ImageState.id).Nodup)
    (hurls : (sc.images.map ImageState.url).Nodup) :
    exportLayoutOps (s * sw) (s * sh) s s sc =
      (previewLayoutOps sw sh sc).map (DrawOp.scale s) := by
  cases hm : sc.layoutMode
  case grid =>
    simp only [previewLayoutOps, exportLayoutOps, hm]
    rw [List.map_map]
    apply List.map_congr_left
    intro p _
    simp only [Function.comp_apply]
    exact exportDrawImage_scale s hs _ _ _ _ _ _ _ _ _ _ _ _
      (by first | ring1 | (split_ifs <;> ring1))
          (by first | ring1 | (split_ifs <;> ring1))
          (by first | ring1 | (split_ifs <;> ring1))
          (by first | ring1 | (split_ifs <;> ring1))
  case leftBig =>
    simp only [previewLayoutOps, exportLayoutOps, hm, reduceIte]
    rw [List.map_append]
    refine congrArg₂ (· ++ ·) ?_ ?_
    · cases hli : sc.loadedImages with
      | nil => rfl
      | cons img0 rest =>
        simp only [List.map_cons, List.map_nil]
        refine congrArg₂ List.cons ?_ rfl
        exact exportDrawImage_scale s hs _ _ _ _ _ _ _ _ _ _ _ _
          (by first | ring1 | (split_ifs <;> ring1))
          (by first | ring1 | (split_ifs <;> ring1))
          (by first | ring1 | (split_ifs <;> ring1))
          (by first | ring1 | (split_ifs <;> ring1))
    · by_cases hl : 1 < sc.loadedImages.length
      · rw [if_pos hl, if_pos hl, List.map_map]
        apply List.map_congr_left
        intro p _
        simp only [Function.comp_apply]
        exact exportDrawImage_scale s hs _ _ _ _ _ _ _ _ _ _ _ _
          (by first | ring1 | (split_ifs <;> ring1))
          (by first | ring1 | (split_ifs <;> ring1))
          (by first | ring1 | (split_ifs <;> ring1))
          (by first | ring1 | (split_ifs <;> ring1))
      · rw [if_neg hl, if_neg hl]
        rfl
  case rightBig =>
    simp only [previewLayoutOps, exportLayoutOps, hm, reduceIte]
    rw [List.map_append]
    refine congrArg₂ (· ++ ·) ?_ ?_
    · cases hli : sc.loadedImages with
      | nil => rfl
      | cons img0 rest =>
        simp only [List.map_cons, List.map_nil]
        refine congrArg₂ List.cons ?_ rfl
        exact exportDrawImage_scale s hs _ _ _ _ _ _ _ _ _ _ _ _
          (by first | ring1 | (split_ifs <;> ring1))
          (by first | ring1 | (split_ifs <;> ring1))
          (by first | ring1 | (split_ifs <;> ring1))
          (by first | ring1 | (split_ifs <;> ring1))
    · by_cases hl : 1 < sc.loadedImages.length
      · rw [if_pos hl, if_pos hl, List.map_map]
        apply List.map_congr_left
        intro p _
        simp only [Function.comp_apply]
        exact exportDrawImage_scale s hs _ _ _ _ _ _ _ _ _ _ _ _
          (by first | ring1 | (split_ifs <;> ring1))
          (by first | ring1 | (split_ifs <;> ring1))
          (by first | ring1 | (split_ifs <;> ring1))
          (by first | ring1 | (split_ifs <;> ring1))
      · rw [if_neg hl, if_neg hl]
        rfl
  case topBig =>
    simp only [previewLayoutOps, exportLayoutOps, hm, reduceIte]
    rw [List.map_append]
    refine congrArg₂ (· ++ ·) ?_ ?_
    · cases hli : sc.loadedImages with
      | nil => rfl
      | cons img0 rest =>
        simp only [List.map_cons, List.map_nil]
        refine congrArg₂ List.cons ?_ rfl
        exact exportDrawImage_scale s hs _ _ _ _ _ _ _ _ _ _ _ _
          (by first | ring1 | (split_ifs <;> ring1))
          (by first | ring1 | (split_ifs <;> ring1))
          (by first | ring1 | (split_ifs <;> ring1))
          (by first | ring1 | (split_ifs <;> ring1))
    · by_cases hl : 1 < sc.loadedImages.length
      · rw [if_pos hl, if_pos hl, List.map_map]
        apply List.map_congr_left
        intro p _
        simp only [Function.comp_apply]
        exact exportDrawImage_scale s hs _ _ _ _ _ _ _ _ _ _ _ _
          (by first | ring1 | (split_ifs <;> ring1))
          (by first | ring1 | (split_ifs <;> ring1))
          (by first | ring1 | (split_ifs <;> ring1))
          (by first | ring1 | (split_ifs <;> ring1))
      · rw [if_neg hl, if_neg hl]
        rfl
  case bottomBig =>
    simp only [previewLayoutOps, exportLayoutOps, hm, reduceIte]
    rw [List.map_append]
    refine congrArg₂ (· ++ ·) ?_ ?_
    · cases hli : sc.loadedImages with
      | nil => rfl
      | cons img0 rest =>
        simp only [List.map_cons, List.map_nil]
        refine congrArg₂ List.cons ?_ rfl
        exact exportDrawImage_scale s hs _ _ _ _ _ _ _ _ _ _ _ _
          (by first | ring1 | (split_ifs <;> ring1))
          (by first | ring1 | (split_ifs <;> ring1))
          (by first | ring1 | (split_ifs <;> ring1))
          (by first | ring1 | (split_ifs <;> ring1))
    · by_cases hl : 1 < sc.loadedImages.length
      · rw [if_pos hl, if_pos hl, List.map_map]
        apply List.map_congr_left
        intro p _
        simp only [Function.comp_apply]
        exact exportDrawImage_scale s hs _ _ _ _ _ _ _ _ _ _ _ _
          (by first | ring1 | (split_ifs <;> ring1))
          (by first | ring1 | (split_ifs <;> ring1))
          (by first | ring1 | (split_ifs <;> ring1))
          (by first | ring1 | (split_ifs <;> ring1))
      · rw [if_neg hl, if_neg hl]
        rfl
  case singleBlur =>
    simp only [previewLayoutOps, exportLayoutOps, hm]
    rw [List.map_append]
    refine congrArg₂ (· ++ ·) ?_ ?_
    · by_cases hl : 0 < (sc.loadedImages.drop 1).length
      · rw [if_pos hl, if_pos hl, List.map_map]
        apply List.map_congr_left
        intro p _
        simp only [Function.comp_apply, DrawOp.scale, Rect.scale, DrawOp.blurred.injEq,
          Rect.mk.injEq, true_and, and_true]
        constructorm* _ ∧ _ <;> first | rfl | ring
      · rw [if_neg hl, if_neg hl]
        rfl
    · cases hli : sc.loadedImages with
      | nil => rfl
      | cons img0 rest =>
        simp only [List.map_cons, List.map_nil]
        refine congrArg₂ List.cons ?_ rfl
        exact exportDrawImage_scale s hs _ _ _ _ _ _ _ _ _ _ _ _
          (by first | ring1 | (split_ifs <;> ring1))
          (by first | ring1 | (split_ifs <;> ring1))
          (by first | ring1 | (split_ifs <;> ring1))
          (by first | ring1 | (split_ifs <;> ring1))
  case freeform =>
    simp only [previewLayoutOps, exportLayoutOps, hm]
    rw [List.map_flatMap]
    apply flatMap_congr_mem
    intro a ha
    have hmem : a ∈ sc.images := (List.mem_insertionSort (fun x y => zKey x ≤ zKey y)).mp ha
    rw [← findBitmap_agree sc.images sc.loadedImages hmaps hids hurls a hmem]
    cases hb : previewFindBitmap sc.loadedImages a <;> cases hx : a.x <;>
      cases hy : a.y <;> cases hw : a.width <;> cases hh : a.height <;>
        simp [hsel, DrawOp.scale, Rect.scale, mul_comm]

/-- C1 amended: with a uniform scale factor `s = exportW/previewW = exportH/previewH`
(as with the 4:3 preview and the fixed 2000×1500 export), the export renderer
produces exactly the preview composition with every linear pixel quantity
multiplied by `s`, for every layout mode and scene (no selection overlay, a
non-empty scene, and decoded bitmaps aligned with the image list with
distinct ids and urls).  Under anisotropic scale factors per-axis equality
fails (see the counterexample): the watermark height follows the bitmap
aspect ratio (scales by scaleX) and the text background width follows the
scaleY-scaled font. -/
theorem export_refines_preview (EW EH sw sh s : ℚ) (sc : Scene)
    (hs : 0 < s) (hsw : sw ≠ 0) (hsh : sh ≠ 0)
    (hEW : EW = s * sw) (hEH : EH = s * sh)
    (hsel : sc.selectedImageId = none)
    (hne : ¬(sc.images = [] ∧ sc.textLayers = [] ∧ sc.watermark = none))
    (hmaps : sc.loadedImages.map Bitmap.src = sc.images.map ImageState.url)
    (hids : (sc.images.map ImageState.id).Nodup)
    (hurls : (sc.images.map ImageState.url).Nodup) :
    exportOps EW EH sw sh sc = (previewOps sw sh sc).map (DrawOp.scale s) := by
  subst hEW hEH
  simp only [exportOps, previewOps]
  rw [mul_div_cancel_right₀ s hsw, mul_div_cancel_right₀ s hsh]
  rw [if_neg hne]
  simp only [List.map_append, List.append_assoc]
  rw [backgroundOps_scale s sw sh sc,
    layoutOps_scale s sw sh (ne_of_gt hs) sc hsel hmaps hids hurls,
    watermarkOps_scale s sw sh sc, textOps_scale s sc]

/-- Witness for C1 (amended): the grid demo scene exported at twice the
preview size (800×600 → 1600×1200, uniform scale 2). -/
theorem export_refines_preview_witness :
    exportOps 1600 1200 800 600 gridDemoScene =
      (previewOps 800 600 gridDemoScene).map (DrawOp.scale 2) :=
  export_refines_preview 1600 1200 800 600 2 gridDemoScene (by norm_num)
    (by norm_num) (by norm_num) (by norm_num) (by norm_num) rfl
    (by simp [gridDemoScene]) rfl (by decide) (by decide)

/-- C1 counterexample: at preview 100×100 and export 200×300
(scaleX = 2, scaleY = 3) with only a watermark (bitmap aspect ratio 2,
size 20%, top-left), the export watermark height is `w/aspect = 20` while the
per-axis scaling of the preview height demands `3 · 10 = 30`; the export
composition is not the per-axis scaling of the preview, refuting the claim
for unequal axis factors. -/
theorem export_refines_preview_counterexample :
    exportOps 200 300 100 100 wmCexScene ≠
      (previewOps 100 100 wmCexScene).map (DrawOp.scaleXY 2 3) := by
  intro hcontra
  have h3 := congrArg (fun l => l[2]?) hcontra
  norm_num [exportOps, previewOps, backgroundOps, exportLayoutOps, previewLayoutOps,
    exportWatermarkOps, previewWatermarkOps, exportTextOps, previewTextOps,
    wmCexScene, gridDemoScene, DrawOp.scaleXY, Rect.scaleXY, bgFillColor,
    reduceCtorEq] at h3
  simp [DrawOp.scaleXY, Rect.scaleXY] at h3
  norm_num at h3

end GridMockup
